import Mathlib

/-!
Verification of the Projective Set game engine.

This file gives a shallow embedding of the core game logic of the
repository (shared set-validation / deck / game-state modules, and the
server-side lobby / game managers), and proves or refutes the stated
properties of that logic.

Modelling conventions:
* TypeScript numbers used as card values, counts and indices are `Nat`;
  timer quantities (milliseconds) are `Int`.
* Ambient effects are made explicit: `Math.random` draws used by the
  Fisher-Yates shuffle become a `List Nat` of raw draws (clamped by
  `% (i+1)` exactly as `Math.floor(Math.random()*(i+1))` lands in
  `[0,i]`), and `generateCardId`'s fresh-id minting becomes an explicit
  id supply `Nat → CardId`.
* `null`-able fields become `Option`, thrown-free fallible operations
  return sum types, mirroring the source's `Result<T>` values.
-/

namespace ProjSet

/-! ## Card model (shared/src/types/card.ts) -/

abbrev Card := Nat
abbrev CardId := String

structure CardInstance where
  id : CardId
  value : Card
deriving DecidableEq, Repr

def DECK_SIZE : Nat := 63
def ACTIVE_CARD_COUNT : Nat := 7

/-! ## Set validator (shared/src/game/validation.ts) -/

def MIN_SET_SIZE : Nat := 3

/-- `isValidSet`: false for fewer than `MIN_SET_SIZE` cards, else checks
that the XOR-reduction of all values (left fold, initial accumulator 0,
as in `cards.reduce((acc, card) => acc ^ card, 0)`) is zero. -/
def isValidSet (cards : List Card) : Bool :=
  if cards.length < MIN_SET_SIZE then false
  else decide (cards.foldl (fun acc card => acc ^^^ card) 0 = 0)

/-- `countBits`: population count by repeated `n & 1` / `n >>>= 1`,
looping while `n` is nonzero. The while-loop is modelled with an
explicit iteration bound (the initial `n` itself, ample since `n` at
least halves every iteration); `countBitsGo_eq` shows the bound is
irrelevant. -/
def countBitsGo : Nat → Nat → Nat
  | _, 0 => 0
  | 0, _ + 1 => 0
  | fuel + 1, n + 1 => ((n + 1) % 2) + countBitsGo fuel ((n + 1) / 2)

def countBits (n : Nat) : Nat := countBitsGo n n

/-- XOR of the cards whose index bit is set in `mask`: the inner loop of
`hasValidSet` (`for i in 0..n-1: if (mask & (1 << i)) xor ^= cards[i]`). -/
def maskXor (cards : List Card) (mask : Nat) : Nat :=
  (List.range cards.length).foldl
    (fun acc i => if mask.testBit i then acc ^^^ cards.getD i 0 else acc) 0

/-- `hasValidSet`: brute-force bitmask enumeration over masks
`7 ≤ mask < 2^n`, skipping masks with fewer than 3 set bits,
short-circuiting on the first subset whose XOR is zero. -/
def hasValidSet (cards : List Card) : Bool :=
  if cards.length < MIN_SET_SIZE then false
  else (List.range' 7 (2 ^ cards.length - 7)).any fun mask =>
    decide (MIN_SET_SIZE ≤ countBits mask) && decide (maskXor cards mask = 0)

/-- Modelled from the spec: "the XOR-reduction of all values", written
independently of the implementation's fold direction, for the validity-law
refinement statement. -/
def xorOfValues (values : List Card) : Nat :=
  values.foldr (fun v acc => v ^^^ acc) 0

/-- Recursive restatement of `maskXor`, consuming the mask bit by bit
(the equivalence with the indexed loop is `maskXor_eq_rec`). -/
def maskXorRec : List Card → Nat → Nat
  | [], _ => 0
  | c :: cs, m => (if m % 2 = 1 then c else 0) ^^^ maskXorRec cs (m / 2)

/-! ## Deck service (shared/src/game/deck.ts)

`generateCardId` mints fresh unique ids from the wall clock and
`Math.random`; it is modelled by an explicit id supply `ids : Nat → CardId`.
`shuffle` is in-place Fisher-Yates driven by `Math.random`; the random
draws are modelled by a list `js` of raw naturals, the draw for loop
index `i` being `js.headD 0 % (i + 1)` (every value of
`Math.floor(Math.random() * (i + 1))` in `[0, i]` is realisable). -/

/-- `createDeck`: one card per value `1..63`, ascending, each with a
fresh id from the supply. -/
def createDeck (ids : Nat → CardId) : List CardInstance :=
  (List.range DECK_SIZE).map (fun i => ⟨ids i, i + 1⟩)

/-- Exchange the elements at positions `i` and `j`
(`[array[i], array[j]] = [array[j], array[i]]`). -/
def listSwap (l : List α) (i j : Nat) : List α :=
  match l[i]?, l[j]? with
  | some x, some y => (l.set i y).set j x
  | _, _ => l

/-- The Fisher-Yates loop `for (i = n-1; i > 0; i--) swap(a[i], a[rand(0..i)])`,
recursing on the loop index. -/
def shuffleGo : List Nat → List α → Nat → List α
  | _, l, 0 => l
  | js, l, i + 1 => shuffleGo js.tail (listSwap l (i + 1) (js.headD 0 % (i + 2))) i

/-- `shuffle`: uniform in-place Fisher-Yates. -/
def shuffle (js : List Nat) (l : List α) : List α :=
  shuffleGo js l (l.length - 1)

/-- `createShuffledDeck()`. -/
def createShuffledDeck (js : List Nat) (ids : Nat → CardId) : List CardInstance :=
  shuffle js (createDeck ids)

/-- `dealCards(deck, count)`: pops up to `count` cards off the end of the
deck; returns `(dealt cards in deal order, remaining deck)`. -/
def dealCards : List α → Nat → List α × List α
  | deck, 0 => ([], deck)
  | deck, count + 1 =>
    match deck.getLast? with
    | none => ([], deck)
    | some card =>
        let rest := dealCards deck.dropLast count
        (card :: rest.1, rest.2)

/-- `map((p, i) => ...)`: JavaScript `Array.map` with the element index. -/
def mapWithIndex (f : Nat → α → β) : Nat → List α → List β
  | _, [] => []
  | i, a :: as => f i a :: mapWithIndex f (i + 1) as

/-- `returnCardsToDeck(deck, cards)`: re-mints fresh ids for the returned
cards, appends them to the deck and reshuffles the whole deck. -/
def returnCardsToDeck (js : List Nat) (ids : Nat → CardId)
    (deck cards : List CardInstance) : List CardInstance :=
  let cardsWithNewIds := mapWithIndex (fun i card => ⟨ids i, card.value⟩) 0 cards
  shuffle js (deck ++ cardsWithNewIds)

/-! ## Game state model (shared/src/types/game.ts) -/

inductive GamePhase where
  | waiting | playing | ended
deriving DecidableEq, Repr

inductive GameEndReason where
  | deck_empty | timer_expired | player_quit
deriving DecidableEq, Repr

inductive SetFoundBehavior where
  | immediate | click
deriving DecidableEq, Repr

inductive ScoringMode where
  | cards | sets
deriving DecidableEq, Repr

structure TimerConfig where
  durationMs : Int
deriving DecidableEq, Repr

/-- Single- and multi-player settings share all fields except
`scoringMode`, which only `MultiplayerSettings` carries; the optional
field models both record shapes (a single-player record reads
`scoringMode` as `undefined`). -/
structure GameSettings where
  colorsEnabled : Bool
  binaryMode : Bool
  turnTimer : Option TimerConfig
  gameTimer : Option TimerConfig
  setFoundBehavior : SetFoundBehavior
  infiniteDeck : Bool
  scoringMode : Option ScoringMode
deriving DecidableEq, Repr

structure Player where
  id : String
  name : String
  playerNumber : Nat
  color : String
  claimedCards : List CardInstance
  selectedCardIds : List CardId
  score : Nat
  isConnected : Bool
  isReady : Bool
deriving DecidableEq, Repr

structure GameState where
  phase : GamePhase
  deck : List CardInstance
  activeCards : List CardInstance
  players : List Player
  settings : GameSettings
  turnTimeRemainingMs : Option Int
  gameTimeRemainingMs : Option Int
  endReason : Option GameEndReason
  startedAt : Option Int
deriving DecidableEq, Repr

def DEFAULT_MULTIPLAYER_SETTINGS : GameSettings :=
  { colorsEnabled := true
    binaryMode := false
    turnTimer := none
    gameTimer := none
    setFoundBehavior := .immediate
    infiniteDeck := false
    scoringMode := some .cards }

/-! ## Game state engine (shared/src/game/state.ts) -/

/-- `createMultiplayerGame(players, settings)`: shuffle a fresh deck, deal
7 active cards, reset per-game player fields and renumber by array order.
`Date.now()` is passed explicitly as `now`. -/
def createMultiplayerGame (js : List Nat) (ids : Nat → CardId)
    (players : List Player) (settings : GameSettings) (now : Int) : GameState :=
  let deck := createShuffledDeck js ids
  let dealt := dealCards deck ACTIVE_CARD_COUNT
  let gamePlayers := mapWithIndex (fun index p =>
    { p with claimedCards := [], selectedCardIds := [], score := 0,
             playerNumber := index + 1 }) 0 players
  { phase := .playing
    deck := dealt.2
    activeCards := dealt.1
    players := gamePlayers
    settings := settings
    turnTimeRemainingMs := settings.turnTimer.map (·.durationMs)
    gameTimeRemainingMs := settings.gameTimer.map (·.durationMs)
    endReason := none
    startedAt := some now }

/-- `toggleCardSelection(state, playerId, cardId)`. -/
def toggleCardSelection (s : GameState) (playerId : String) (cardId : CardId) :
    GameState :=
  match s.players.findIdx? (fun p => p.id = playerId) with
  | none => s
  | some playerIndex =>
    if !(s.activeCards.any (fun c => c.id = cardId)) then s
    else
      match s.players[playerIndex]? with
      | none => s
      | some player =>
        let isSelected := player.selectedCardIds.contains cardId
        let newSelection :=
          if isSelected then player.selectedCardIds.filter (fun cid => cid ≠ cardId)
          else player.selectedCardIds ++ [cardId]
        { s with players :=
            s.players.set playerIndex { player with selectedCardIds := newSelection } }

/-- `getSelectedCardValues(state, playerId)`: selected ids mapped to
current table values, unknown ids silently dropped. -/
def getSelectedCardValues (s : GameState) (playerId : String) : List Card :=
  match s.players.find? (fun p => p.id = playerId) with
  | none => []
  | some player =>
      (player.selectedCardIds.filterMap
        (fun cid => s.activeCards.find? (fun c => c.id = cid))).map (·.value)

/-- `isPlayerSelectionValid(state, playerId)`. -/
def isPlayerSelectionValid (s : GameState) (playerId : String) : Bool :=
  isValidSet (getSelectedCardValues s playerId)

/-- The player update `state.players.map((p, i) => ...)` performed by a
successful `claimSet`: the claiming player (at `playerIndex`) banks the
claimed cards, clears their selection and scores; every other player has
the claimed ids filtered out of their selection. -/
def claimUpdatePlayers (claimed : List CardInstance) (cardIds : List CardId)
    (pointsAwarded playerIndex : Nat) (players : List Player) : List Player :=
  mapWithIndex (fun i p =>
    if i = playerIndex then
      { p with claimedCards := p.claimedCards ++ claimed,
               selectedCardIds := [],
               score := p.score + pointsAwarded }
    else
      { p with selectedCardIds :=
          p.selectedCardIds.filter (fun cid => !(cardIds.contains cid)) })
    0 players

/-- `claimSet(state, playerId, cardIds)`: fails closed with the unchanged
state and 0 points; on success moves cards, scores, clears/filters
selections, (infinite deck) regenerates claimed cards into the deck,
refills the table to 7 and resets the turn timer. -/
def claimSet (js : List Nat) (ids : Nat → CardId) (s : GameState)
    (playerId : String) (cardIds : List CardId) : GameState × Nat :=
  match s.players.findIdx? (fun p => p.id = playerId) with
  | none => (s, 0)
  | some playerIndex =>
    let claimedCards :=
      cardIds.filterMap (fun cid => s.activeCards.find? (fun c => c.id = cid))
    if claimedCards.length ≠ cardIds.length then (s, 0)
    else if !(isValidSet (claimedCards.map (·.value))) then (s, 0)
    else
      let scoringMode := s.settings.scoringMode.getD ScoringMode.cards
      let pointsAwarded :=
        if scoringMode = ScoringMode.cards then claimedCards.length else 1
      let newActiveCards := s.activeCards.filter (fun c => !(cardIds.contains c.id))
      let newDeck :=
        if s.settings.infiniteDeck then returnCardsToDeck js ids s.deck claimedCards
        else s.deck
      let cardsNeeded := ACTIVE_CARD_COUNT - newActiveCards.length
      let dealt := dealCards newDeck cardsNeeded
      let newActiveCards2 := newActiveCards ++ dealt.1
      let newPlayers :=
        claimUpdatePlayers claimedCards cardIds pointsAwarded playerIndex
          s.players
      ({ s with deck := dealt.2
                activeCards := newActiveCards2
                players := newPlayers
                turnTimeRemainingMs := s.settings.turnTimer.map (·.durationMs) },
       pointsAwarded)

/-- `clearSelection(state, playerId)`. -/
def clearSelection (s : GameState) (playerId : String) : GameState :=
  match s.players.findIdx? (fun p => p.id = playerId) with
  | none => s
  | some playerIndex =>
    match s.players[playerIndex]? with
    | none => s
    | some player =>
        { s with players :=
            s.players.set playerIndex { player with selectedCardIds := [] } }

/-- `checkGameEnd(state)`. -/
def checkGameEnd (s : GameState) : Option GameEndReason :=
  if (match s.gameTimeRemainingMs with
      | some t => decide (t ≤ 0)
      | none => false) then
    some .timer_expired
  else if (match s.turnTimeRemainingMs with
      | some t => decide (t ≤ 0)
      | none => false) then
    some .timer_expired
  else if s.deck.length = 0 && !s.settings.infiniteDeck
          && !(hasValidSet (s.activeCards.map (·.value))) then
    some .deck_empty
  else
    none

/-- `endGame(state, reason)`. -/
def endGame (s : GameState) (reason : GameEndReason) : GameState :=
  { s with phase := .ended, endReason := some reason }

/-- `updateTimers(state, elapsedMs)`: decrement non-null timers, floored
at 0. -/
def updateTimers (s : GameState) (elapsedMs : Int) : GameState :=
  { s with
    turnTimeRemainingMs := s.turnTimeRemainingMs.map (fun t => max 0 (t - elapsedMs))
    gameTimeRemainingMs := s.gameTimeRemainingMs.map (fun t => max 0 (t - elapsedMs)) }

/-! ## Manager layer (server/src/managers)

The managers key instances by lobby code in process-wide maps; the
per-room operations below act on the instance the lookup found (the
not-found errors and the timer-loop handle are outside this model except
where a claim needs them). -/

inductive ErrorCode where
  | GAME_NOT_STARTED | INVALID_REQUEST | NO_PENDING_SET | NOT_A_VALID_SET
  | LOBBY_NOT_FOUND | LOBBY_FULL | SETTINGS_LOCKED | NOT_HOST
deriving DecidableEq, Repr

structure PendingSet where
  playerId : String
  cardIds : List CardId
  timestamp : Int
deriving DecidableEq, Repr

/-- A `GameInstance` minus its `loopInterval` timer handle. -/
structure GameInstance where
  state : GameState
  pendingSet : Option PendingSet
deriving DecidableEq, Repr

structure ClaimSuccess where
  claimedCardIds : List CardId
  pointsAwarded : Nat
  newCards : List (CardId × Card)
  gameEnded : Bool
deriving DecidableEq, Repr

instance {ε α : Type} [DecidableEq ε] [DecidableEq α] :
    DecidableEq (Except ε α) := fun x y =>
  match x, y with
  | .error a, .error b =>
      if h : a = b then isTrue (by rw [h]) else isFalse (by simp [h])
  | .ok a, .ok b =>
      if h : a = b then isTrue (by rw [h]) else isFalse (by simp [h])
  | .error _, .ok _ => isFalse (by simp)
  | .ok _, .error _ => isFalse (by simp)

/-- `GameManager.claimSet` on a found instance: delegates to the engine,
surfaces a zero-point claim as `NOT_A_VALID_SET`, reports newly dealt
cards, and applies `checkGameEnd`/`endGame`. -/
def managerClaimSet (js : List Nat) (ids : Nat → CardId) (g : GameInstance)
    (playerId : String) (cardIds : List CardId) :
    Except ErrorCode ClaimSuccess × GameInstance :=
  let activeCardsBefore := g.state.activeCards.map (·.id)
  let claimResult := claimSet js ids g.state playerId cardIds
  if claimResult.2 = 0 then (Except.error .NOT_A_VALID_SET, g)
  else
    let newState := claimResult.1
    let newCards :=
      (newState.activeCards.filter
        (fun c => !(activeCardsBefore.contains c.id))).map (fun c => (c.id, c.value))
    match checkGameEnd newState with
    | some reason =>
        (Except.ok ⟨cardIds, claimResult.2, newCards, true⟩,
         ⟨endGame newState reason, g.pendingSet⟩)
    | none =>
        (Except.ok ⟨cardIds, claimResult.2, newCards, false⟩,
         ⟨newState, g.pendingSet⟩)

/-- `GameManager.confirmSet` on a found instance: authorizes against the
held `PendingSet`, delegates to `claimSet`, and clears the pending slot
only after a successful claim (the error path returns first). -/
def managerConfirmSet (js : List Nat) (ids : Nat → CardId) (g : GameInstance)
    (playerId : String) : Except ErrorCode ClaimSuccess × GameInstance :=
  match g.pendingSet with
  | none => (Except.error .NO_PENDING_SET, g)
  | some pending =>
    if pending.playerId ≠ playerId then (Except.error .NO_PENDING_SET, g)
    else
      let r := managerClaimSet js ids g playerId pending.cardIds
      match r.1 with
      | Except.error e => (Except.error e, r.2)
      | Except.ok payload => (Except.ok payload, { r.2 with pendingSet := none })

/-! ## Lobby manager (server/src/managers/LobbyManager.ts) -/

structure ChatMessage where
  id : String
  playerId : String
  playerName : String
  content : String
  timestamp : Int
deriving DecidableEq, Repr

structure LobbyState where
  code : String
  hostId : String
  players : List Player
  settings : GameSettings
  settingsUnlocked : Bool
  chatMessages : List ChatMessage
deriving DecidableEq, Repr

def PLAYER_COLORS : List String :=
  ["#3B82F6", "#EF4444", "#10B981", "#F59E0B",
   "#8B5CF6", "#EC4899", "#06B6D4", "#F97316"]

/-- `LobbyManager.joinLobby(code, playerId, playerName)`: the lobby map
is modelled as an association list; checks run in source order —
lookup, capacity, existing membership, append. -/
def joinLobby (maxPlayersPerLobby : Nat) (lobbies : List (String × LobbyState))
    (code playerId playerName : String) :
    Except ErrorCode (LobbyState × Player) :=
  match lobbies.lookup code with
  | none => Except.error .LOBBY_NOT_FOUND
  | some lobby =>
    if maxPlayersPerLobby ≤ lobby.players.length then Except.error .LOBBY_FULL
    else
      match lobby.players.find? (fun p => p.id = playerId) with
      | some p => Except.ok (lobby, p)
      | none =>
        let playerNumber := lobby.players.length + 1
        let player : Player :=
          { id := playerId
            name := playerName
            playerNumber := playerNumber
            color := PLAYER_COLORS.getD ((playerNumber - 1) % PLAYER_COLORS.length) ""
            claimedCards := []
            selectedCardIds := []
            score := 0
            isConnected := true
            isReady := false }
        Except.ok ({ lobby with players := lobby.players ++ [player] }, player)

/-! ## Operation sequences over a game state (for the conservation law) -/

inductive GOp where
  | toggle (playerId : String) (cardId : CardId)
  | clear (playerId : String)
  | claim (js : List Nat) (ids : Nat → CardId) (playerId : String)
      (cardIds : List CardId)
  | tick (elapsedMs : Int)
  | finish (reason : GameEndReason)

def applyOp (s : GameState) : GOp → GameState
  | .toggle p c => toggleCardSelection s p c
  | .clear p => clearSelection s p
  | .claim js ids p cids => (claimSet js ids s p cids).1
  | .tick ms => updateTimers s ms
  | .finish r => endGame s r

def applyOps (s : GameState) (ops : List GOp) : GameState :=
  ops.foldl applyOp s

/-- Number of card instances across deck, table and all claimed piles. -/
def totalCards (s : GameState) : Nat :=
  s.deck.length + s.activeCards.length
    + (s.players.map (fun p => p.claimedCards.length)).sum

/-- Every `claim` operation in a list passes duplicate-free card ids. -/
def claimsNodup (ops : List GOp) : Prop :=
  ∀ op ∈ ops, ∀ js ids p cids, op = GOp.claim js ids p cids → cids.Nodup

/-- Conservation invariant of a finite-deck game: 63 cards in
circulation, duplicate-free instance ids on deck and table, finite
deck mode. -/
def conserved (s : GameState) : Prop :=
  totalCards s = 63
  ∧ ((s.deck ++ s.activeCards).map (fun c => c.id)).Nodup
  ∧ s.settings.infiniteDeck = false

/-! ## Concrete fixtures used to instantiate and refute claims -/

/-- A deterministic id supply standing in for `generateCardId`. -/
def exIds : Nat → CardId := fun n => "card" ++ toString n

/-- Id supply used for cards regenerated by `returnCardsToDeck`. -/
def exIds2 : Nat → CardId := fun n => "regen" ++ toString n

def mkPlayer (pid : String) (n : Nat) : Player :=
  { id := pid, name := pid, playerNumber := n, color := "#3B82F6",
    claimedCards := [], selectedCardIds := [], score := 0,
    isConnected := true, isReady := true }

/-- Random stream making the Fisher-Yates pass over a 63-card deck the
identity permutation (draw `j = i` at every loop index `i`). -/
def idStream63 : List Nat := (List.range' 1 62).reverse

/-- Playing state: one player `A`, table `1,2,3,4,8,16,32`, 2-card deck,
turn timer configured at 5000ms with 1234ms left. -/
def stateTimer : GameState :=
  { phase := .playing
    deck := [⟨"d1", 40⟩, ⟨"d2", 41⟩]
    activeCards := [⟨"c1", 1⟩, ⟨"c2", 2⟩, ⟨"c3", 3⟩, ⟨"c4", 4⟩,
                    ⟨"c5", 8⟩, ⟨"c6", 16⟩, ⟨"c7", 32⟩]
    players := [mkPlayer "A" 1]
    settings := { DEFAULT_MULTIPLAYER_SETTINGS with turnTimer := some ⟨5000⟩ }
    turnTimeRemainingMs := some 1234
    gameTimeRemainingMs := none
    endReason := none
    startedAt := some 0 }

/-- Playing state where player `A` has cards `c1, c2` selected, `c1`
first. -/
def stateMidSelection : GameState :=
  { phase := .playing
    deck := []
    activeCards := [⟨"c1", 1⟩, ⟨"c2", 2⟩, ⟨"c3", 3⟩]
    players := [{ mkPlayer "A" 1 with selectedCardIds := ["c1", "c2"] }]
    settings := DEFAULT_MULTIPLAYER_SETTINGS
    turnTimeRemainingMs := none
    gameTimeRemainingMs := none
    endReason := none
    startedAt := some 0 }

/-- Race fixture: players `A` and `B` have both selected the valid set
`c1,c2,c3` (values `1,2,3`); deck ids are disjoint from the table. -/
def stateRace : GameState :=
  { phase := .playing
    deck := [⟨"d1", 40⟩, ⟨"d2", 41⟩, ⟨"d3", 42⟩]
    activeCards := [⟨"c1", 1⟩, ⟨"c2", 2⟩, ⟨"c3", 3⟩, ⟨"c4", 4⟩,
                    ⟨"c5", 8⟩, ⟨"c6", 16⟩, ⟨"c7", 32⟩]
    players := [{ mkPlayer "A" 1 with selectedCardIds := ["c1", "c2", "c3"] },
                { mkPlayer "B" 2 with selectedCardIds := ["c1", "c2", "c3"] }]
    settings := DEFAULT_MULTIPLAYER_SETTINGS
    turnTimeRemainingMs := none
    gameTimeRemainingMs := none
    endReason := none
    startedAt := some 0 }

/-- Table with no valid set (`1,4,16`) over an empty deck. -/
def stateDeckEmptyStuck : GameState :=
  { phase := .playing
    deck := []
    activeCards := [⟨"c1", 1⟩, ⟨"c2", 4⟩, ⟨"c3", 16⟩]
    players := [mkPlayer "A" 1]
    settings := DEFAULT_MULTIPLAYER_SETTINGS
    turnTimeRemainingMs := none
    gameTimeRemainingMs := none
    endReason := none
    startedAt := some 0 }

/-- Table with a valid set (`1,2,3`) over an empty deck. -/
def stateDeckEmptyLive : GameState :=
  { stateDeckEmptyStuck with
    activeCards := [⟨"c1", 1⟩, ⟨"c2", 2⟩, ⟨"c3", 3⟩] }

/-- Random stream for the 63-card Fisher-Yates pass drawing `j = 0, 1, 2`
at loop indices `62, 61, 60` and `j = i` below: it swaps the cards of
values `1, 2, 3` to the top of the deck, so the dealt table is
`1, 2, 3, 60, 59, 58, 57` (with `1 ^^^ 2 ^^^ 3 = 0`). -/
def dupStream : List Nat := [0, 1, 2] ++ (List.range' 1 59).reverse

/-- A freshly created — hence reachable — game whose table holds the
cards `card0, card1, card2` of values `1, 2, 3` (a XOR-0 triple) next to
`card59` of value `60`. -/
def stateDupReach : GameState :=
  createMultiplayerGame dupStream exIds [mkPlayer "A" 1]
    DEFAULT_MULTIPLAYER_SETTINGS 0

/-- The duplicated claim `[a, a, b, c, d]` with `a = card59` and
`b, c, d = card0, card1, card2`. -/
def dupClaimIds : List CardId :=
  ["card59", "card59", "card0", "card1", "card2"]

/-- Pending-set instance whose pending card ids are not on the table, so
the delegated claim fails. -/
def instStalePending : GameInstance :=
  { state := stateTimer
    pendingSet := some { playerId := "A", cardIds := ["gone1", "gone2", "gone3"],
                         timestamp := 0 } }

/-- Pending-set instance holding the valid set `c1,c2,c3`. -/
def instGoodPending : GameInstance :=
  { state := stateTimer
    pendingSet := some { playerId := "A", cardIds := ["c1", "c2", "c3"],
                         timestamp := 0 } }

def mkLobby (ps : List Player) : LobbyState :=
  { code := "ABCDEF", hostId := "p1", players := ps,
    settings := DEFAULT_MULTIPLAYER_SETTINGS, settingsUnlocked := false,
    chatMessages := [] }

/-- A lobby at the default 8-player capacity, `p1` a member. -/
def fullLobby : LobbyState :=
  mkLobby ((List.range 8).map (fun i => mkPlayer ("p" ++ toString (i + 1)) (i + 1)))

/-- A two-player lobby, `p1` a member. -/
def smallLobby : LobbyState :=
  mkLobby [mkPlayer "p1" 1, mkPlayer "p2" 2]

/-- The infinite-deck settings fixture. -/
def settingsInfinite : GameSettings :=
  { DEFAULT_MULTIPLAYER_SETTINGS with infiniteDeck := true }

/-- A freshly created infinite-deck game (identity shuffle, so the deck
is dealt descending: table values `57..63`). -/
def freshInfinite : GameState :=
  createMultiplayerGame idStream63 exIds [mkPlayer "A" 1] settingsInfinite 0

/-- A freshly created finite-deck game with the same layout. -/
def freshFinite : GameState :=
  createMultiplayerGame idStream63 exIds [mkPlayer "A" 1]
    DEFAULT_MULTIPLAYER_SETTINGS 0

/-- Ids of the table cards with values `57, 58, 60, 63`
(`57 ^^^ 58 ^^^ 60 ^^^ 63 = 0`) in the fresh fixtures. -/
def freshSetIds : List CardId := ["card56", "card57", "card59", "card62"]

/-! ## Supporting lemmas about XOR folds -/

theorem foldl_xor_eq (L : List Card) (a : Nat) :
    L.foldl (fun acc card => acc ^^^ card) a = a ^^^ xorOfValues L := by
  induction L generalizing a with
  | nil => simp [xorOfValues]
  | cons c cs ih =>
      simp only [List.foldl_cons, xorOfValues, List.foldr_cons, ih (a ^^^ c),
        Nat.xor_assoc]

instance : RightCommutative (fun (acc card : Nat) => acc ^^^ card) :=
  ⟨fun a b c => by
    simp only [Nat.xor_assoc, Nat.xor_comm b c]⟩

/-! ## Supporting lemmas about countBits -/

theorem countBitsGo_eq (n : Nat) : ∀ fuel fuel', n ≤ fuel → n ≤ fuel' →
    countBitsGo fuel n = countBitsGo fuel' n := by
  induction n using Nat.strong_induction_on with
  | _ n ih =>
    intro fuel fuel' h h'
    match n, fuel, fuel' with
    | 0, f, f' => cases f <;> cases f' <;> rfl
    | m + 1, f + 1, f' + 1 =>
        have hdiv : (m + 1) / 2 ≤ m := by omega
        have := ih ((m + 1) / 2) (by omega) f f' (by omega) (by omega)
        simp only [countBitsGo, this]

theorem countBits_succ (n : Nat) :
    countBits (n + 1) = ((n + 1) % 2) + countBits ((n + 1) / 2) := by
  have hdiv : (n + 1) / 2 ≤ n := by omega
  unfold countBits
  show countBitsGo (n + 1) (n + 1) = (n + 1) % 2 + countBitsGo ((n + 1) / 2) ((n + 1) / 2)
  rw [show countBitsGo (n + 1) (n + 1)
      = ((n + 1) % 2) + countBitsGo n ((n + 1) / 2) from rfl,
    countBitsGo_eq ((n + 1) / 2) n ((n + 1) / 2) (by omega) (le_refl _)]

/-! ## Supporting list lemmas -/

theorem findIdx?_bound {α : Type} (pr : α → Bool) (l : List α) :
    ∀ st i, l.findIdx? pr st = some i → st ≤ i ∧ i - st < l.length := by
  induction l with
  | nil => intro st i h; rw [List.findIdx?_nil] at h; cases h
  | cons a t ih =>
      intro st i h
      rw [List.findIdx?_cons] at h
      by_cases hp : pr a = true
      · rw [if_pos hp] at h
        cases h
        refine ⟨le_refl _, ?_⟩
        simp
      · rw [if_neg hp] at h
        obtain ⟨h1, h2⟩ := ih (st + 1) i h
        refine ⟨by omega, ?_⟩
        simp only [List.length_cons]
        omega

theorem findIdx?_lt_length {α : Type} {pr : α → Bool} {l : List α} {i : Nat}
    (h : l.findIdx? pr = some i) : i < l.length := by
  have := findIdx?_bound pr l 0 i h
  omega

theorem findIdx?_pred {α : Type} {pr : α → Bool} {l : List α} {i : Nat}
    (h : l.findIdx? pr = some i) (hi : i < l.length) : pr l[i] = true := by
  obtain ⟨hlt, hidx⟩ := List.findIdx?_eq_some_iff_findIdx_eq.mp h
  subst hidx
  exact List.findIdx_getElem

theorem set_getElem_self {α : Type} (l : List α) (i : Nat) (hi : i < l.length) :
    l.set i l[i] = l := by
  apply List.ext_getElem?
  intro j
  rw [List.getElem?_set]
  split
  next hij =>
    subst hij
    simp [List.getElem?_eq_getElem hi]
  next => rfl

theorem findIdx?_set_congr {α : Type} (pr : α → Bool) :
    ∀ (l : List α) (i : Nat) (x : α), ∀ hi : i < l.length, pr x = pr l[i] →
      ∀ st, (l.set i x).findIdx? pr st = l.findIdx? pr st := by
  intro l
  induction l with
  | nil => intro i x hi; simp at hi
  | cons a t ih =>
      intro i x hi hx st
      cases i with
      | zero =>
          show (x :: t).findIdx? pr st = (a :: t).findIdx? pr st
          simp only [List.getElem_cons_zero] at hx
          rw [List.findIdx?_cons, List.findIdx?_cons, hx]
      | succ n =>
          show (a :: t.set n x).findIdx? pr st = (a :: t).findIdx? pr st
          simp only [List.getElem_cons_succ] at hx
          have hn : n < t.length := by
            simp only [List.length_cons] at hi
            omega
          rw [List.findIdx?_cons, List.findIdx?_cons, ih n x hn hx (st + 1)]

theorem find?_eq_findIdx?_bind {α : Type} (pr : α → Bool) :
    ∀ l : List α, l.find? pr = (l.findIdx? pr).bind (fun i => l[i]?) := by
  intro l
  induction l with
  | nil => rfl
  | cons a t ih =>
      by_cases hp : pr a = true
      · simp [List.find?_cons, hp, List.findIdx?_cons]
      · simp only [List.find?_cons, hp, List.findIdx?_cons, if_neg,
          Bool.false_eq_true, List.findIdx?_succ, ih]
        cases t.findIdx? pr with
        | none => rfl
        | some k => simp

theorem length_mapWithIndex {α β : Type} (f : Nat → α → β) :
    ∀ (l : List α) (j0 : Nat), (mapWithIndex f j0 l).length = l.length := by
  intro l
  induction l with
  | nil => intro j0; rfl
  | cons a t ih => intro j0; simp [mapWithIndex, ih]

theorem getElem?_mapWithIndex {α β : Type} (f : Nat → α → β) :
    ∀ (l : List α) (j0 k : Nat),
      (mapWithIndex f j0 l)[k]? = l[k]?.map (f (j0 + k)) := by
  intro l
  induction l with
  | nil => intro j0 k; rfl
  | cons a t ih =>
      intro j0 k
      cases k with
      | zero => simp [mapWithIndex]
      | succ n =>
          simp only [mapWithIndex, List.getElem?_cons_succ]
          rw [ih (j0 + 1) n]
          have h2 : j0 + 1 + n = j0 + (n + 1) := by omega
          rw [h2]

theorem findIdx?_mapWithIndex {α : Type} (f : Nat → α → α) (pr : α → Bool)
    (hf : ∀ j x, pr (f j x) = pr x) :
    ∀ (l : List α) (j0 st : Nat),
      (mapWithIndex f j0 l).findIdx? pr st = l.findIdx? pr st := by
  intro l
  induction l with
  | nil => intro j0 st; rfl
  | cons a t ih =>
      intro j0 st
      show (f j0 a :: mapWithIndex f (j0 + 1) t).findIdx? pr st = _
      rw [List.findIdx?_cons, List.findIdx?_cons, hf j0 a, ih (j0 + 1) (st + 1)]

theorem mem_mapWithIndex {α β : Type} {f : Nat → α → β} {b : β} :
    ∀ {l : List α} {j0 : Nat}, b ∈ mapWithIndex f j0 l →
      ∃ j a, j0 ≤ j ∧ j < j0 + l.length ∧ a ∈ l ∧ b = f j a := by
  intro l
  induction l with
  | nil => intro j0 h; cases h
  | cons x t ih =>
      intro j0 h
      cases h with
      | head => exact ⟨j0, x, le_refl _, by simp, List.mem_cons_self x t, rfl⟩
      | tail _ h2 =>
          obtain ⟨j, a, hj1, hj2, ha, hb⟩ := ih h2
          refine ⟨j, a, by omega, ?_, List.mem_cons_of_mem x ha, hb⟩
          simp only [List.length_cons]
          omega

/-- `find?` with a key predicate returns exactly the member with that
key when keys are distinct. -/
theorem find?_key_eq {α κ : Type} [DecidableEq κ] (key : α → κ) :
    ∀ {l : List α} {c : α}, c ∈ l → (l.map key).Nodup →
      l.find? (fun x => key x = key c) = some c := by
  intro l
  induction l with
  | nil => intro c h; cases h
  | cons a t ih =>
      intro c hmem hnd
      rw [List.map_cons, List.nodup_cons] at hnd
      cases hmem with
      | head =>
          rw [List.find?_cons]
          simp
      | tail _ h2 =>
          have hne : key a ≠ key c := by
            intro hcontra
            exact hnd.1 (hcontra ▸ List.mem_map_of_mem key h2)
          have hda : decide (key a = key c) = false := by simp [hne]
          rw [List.find?_cons]
          simp only [hda]
          exact ih h2 hnd.2

/-! ## Permutation facts about the deck service -/

theorem swap_core {α : Type} :
    ∀ (t : List α) (m : Nat) (a : α) (hm : m < t.length),
      (t.get ⟨m, hm⟩ :: t.set m a).Perm (a :: t) := by
  intro t
  induction t with
  | nil => intro m a hm; cases hm
  | cons b t' ih =>
      intro m a hm
      cases m with
      | zero => exact List.Perm.swap a b t'
      | succ n =>
          have hn : n < t'.length := by
            simp only [List.length_cons] at hm
            omega
          exact (List.Perm.swap b (t'.get ⟨n, hn⟩) (t'.set n a)).trans
            (((ih n a hn).cons b).trans (List.Perm.swap a b t'))

theorem set_swap_perm {α : Type} :
    ∀ (l : List α) (i j : Nat) (hi : i < l.length) (hj : j < l.length),
      ((l.set i (l.get ⟨j, hj⟩)).set j (l.get ⟨i, hi⟩)).Perm l := by
  intro l
  induction l with
  | nil => intro i j hi; cases hi
  | cons a t ih =>
      intro i j hi hj
      cases i with
      | zero =>
          cases j with
          | zero => simp
          | succ m =>
              have hm : m < t.length := by
                simp only [List.length_cons] at hj
                omega
              show ((t.get ⟨m, hm⟩ :: t).set (m + 1) a).Perm (a :: t)
              show (t.get ⟨m, hm⟩ :: t.set m a).Perm (a :: t)
              exact swap_core t m a hm
      | succ n =>
          have hn : n < t.length := by
            simp only [List.length_cons] at hi
            omega
          cases j with
          | zero =>
              show (t.get ⟨n, hn⟩ :: t.set n a).Perm (a :: t)
              exact swap_core t n a hn
          | succ m =>
              have hm : m < t.length := by
                simp only [List.length_cons] at hj
                omega
              show (a :: (t.set n (t.get ⟨m, hm⟩)).set m (t.get ⟨n, hn⟩)).Perm
                (a :: t)
              exact (ih n m hn hm).cons a

theorem listSwap_perm {α : Type} (l : List α) (i j : Nat) :
    (listSwap l i j).Perm l := by
  unfold listSwap
  cases hx : l[i]? with
  | none => exact List.Perm.refl l
  | some x =>
      cases hy : l[j]? with
      | none => exact List.Perm.refl l
      | some y =>
          have hi : i < l.length := by
            by_contra hcon
            rw [List.getElem?_eq_none (by omega)] at hx
            cases hx
          have hj : j < l.length := by
            by_contra hcon
            rw [List.getElem?_eq_none (by omega)] at hy
            cases hy
          have hxv : x = l.get ⟨i, hi⟩ := by
            rw [List.getElem?_eq_getElem hi] at hx
            cases hx
            rfl
          have hyv : y = l.get ⟨j, hj⟩ := by
            rw [List.getElem?_eq_getElem hj] at hy
            cases hy
            rfl
          subst hxv
          subst hyv
          exact set_swap_perm l i j hi hj

theorem shuffleGo_perm {α : Type} :
    ∀ (n : Nat) (js : List Nat) (l : List α), (shuffleGo js l n).Perm l := by
  intro n
  induction n with
  | zero => intro js l; exact List.Perm.refl l
  | succ m ih =>
      intro js l
      exact (ih js.tail (listSwap l (m + 1) (js.headD 0 % (m + 2)))).trans
        (listSwap_perm l (m + 1) (js.headD 0 % (m + 2)))

theorem shuffle_perm {α : Type} (js : List Nat) (l : List α) :
    (shuffle js l).Perm l :=
  shuffleGo_perm (l.length - 1) js l

theorem dealCards_perm {α : Type} :
    ∀ (count : Nat) (deck : List α),
      ((dealCards deck count).1 ++ (dealCards deck count).2).Perm deck := by
  intro count
  induction count with
  | zero => intro deck; exact List.Perm.refl deck
  | succ m ih =>
      intro deck
      cases hlast : deck.getLast? with
      | none =>
          rw [List.getLast?_eq_none_iff] at hlast
          subst hlast
          simp [dealCards]
      | some card =>
          have hred : dealCards deck (m + 1) =
              (card :: (dealCards deck.dropLast m).1,
               (dealCards deck.dropLast m).2) := by
            show (match deck.getLast? with
              | none => (([] : List α), deck)
              | some card => (card :: (dealCards deck.dropLast m).1,
                  (dealCards deck.dropLast m).2)) =
              (card :: (dealCards deck.dropLast m).1,
               (dealCards deck.dropLast m).2)
            rw [hlast]
          rw [hred]
          show (card :: ((dealCards deck.dropLast m).1 ++
            (dealCards deck.dropLast m).2)).Perm deck
          have h1 := (ih deck.dropLast).cons card
          have h2 : deck.dropLast ++ [card] = deck :=
            List.dropLast_append_getLast? card hlast
          have h3 : (deck.dropLast ++ [card]).Perm (card :: deck.dropLast) :=
            List.perm_append_singleton card deck.dropLast
          exact h1.trans ((h2 ▸ h3).symm)

/-- `checkGameEnd` never reports `player_quit`. -/
theorem checkGameEnd_ne_player_quit (s : GameState) :
    checkGameEnd s ≠ some GameEndReason.player_quit := by
  unfold checkGameEnd
  split
  · simp
  · split
    · simp
    · split <;> simp

/-! ## C2 — validity law -/

/-- C2: for every finite list `L` of card values, `isValidSet L` is true
iff `L` has length at least 3 and the XOR of all values in `L` is 0; the
result is invariant under permutation of `L`; repeated values are
accepted (e.g. `[5,5,3,3]`, where each value occurs an even number of
times, is a valid set). -/
theorem validity_law :
    (∀ L : List Card,
      isValidSet L = (decide (MIN_SET_SIZE ≤ L.length) && decide (xorOfValues L = 0)))
  ∧ (∀ L L' : List Card, L.Perm L' → isValidSet L = isValidSet L')
  ∧ isValidSet [5, 5, 3, 3] = true := by
  have law : ∀ L : List Card,
      isValidSet L = (decide (MIN_SET_SIZE ≤ L.length) && decide (xorOfValues L = 0)) := by
    intro L
    by_cases h : L.length < MIN_SET_SIZE
    · have h' : ¬ MIN_SET_SIZE ≤ L.length := by omega
      simp [isValidSet, h, h']
    · have h' : MIN_SET_SIZE ≤ L.length := by omega
      simp [isValidSet, h, h', foldl_xor_eq]
  refine ⟨law, ?_, by decide⟩
  intro L L' hperm
  rw [law L, law L', hperm.length_eq,
    show xorOfValues L = xorOfValues L' from ?_]
  have h0 := hperm.foldl_eq (f := fun acc card => acc ^^^ card) 0
  rw [foldl_xor_eq, foldl_xor_eq, Nat.zero_xor, Nat.zero_xor] at h0
  exact h0

/-- C2 witness: permutation invariance applied at a concrete pair. -/
theorem validity_law_witness :
    isValidSet [17, 5, 20] = isValidSet [20, 5, 17] :=
  validity_law.2.1 [17, 5, 20] [20, 5, 17] (by decide)

/-! ## C9 — turn timer resets on any successful claim -/

/-- C9: every successful `claimSet` (nonzero points awarded) sets
`turnTimeRemainingMs` of the resulting state to the configured turn-timer
duration (`none` when no turn timer is configured), regardless of the
claiming player and of the timer's prior value. -/
theorem claim_resets_turn_timer (js : List Nat) (ids : Nat → CardId)
    (s : GameState) (playerId : String) (cardIds : List CardId)
    (hsucc : (claimSet js ids s playerId cardIds).2 ≠ 0) :
    (claimSet js ids s playerId cardIds).1.turnTimeRemainingMs
      = s.settings.turnTimer.map (fun t => t.durationMs) := by
  cases heq : s.players.findIdx? (fun p => p.id = playerId) with
  | none =>
      simp only [claimSet, heq] at hsucc
      exact absurd rfl hsucc
  | some i =>
      simp only [claimSet, heq] at hsucc ⊢
      split at hsucc
      · exact absurd rfl hsucc
      next hlen =>
        rw [if_neg hlen]
        split at hsucc
        · exact absurd rfl hsucc
        next hvalid =>
          rw [if_neg hvalid]

/-- C9 witness: a concrete successful claim with a configured 5000ms
turn timer. -/
theorem claim_resets_turn_timer_witness :
    (claimSet [] exIds stateTimer "A" ["c1", "c2", "c3"]).1.turnTimeRemainingMs
      = stateTimer.settings.turnTimer.map (fun t => t.durationMs) :=
  claim_resets_turn_timer [] exIds stateTimer "A" ["c1", "c2", "c3"] (by decide)

/-! ## C7 — checkGameEnd semantics -/

/-- C7: `checkGameEnd` returns `timer_expired` exactly when a configured
(non-`none`) timer is `≤ 0`; otherwise, it returns `deck_empty` exactly
when the deck mode is finite, the deck is empty and no valid set exists
among the active card values; otherwise it returns `none`. Concretely,
with an empty deck, no timers, and active values `[1,4,16]` it returns
`deck_empty`, and with active values `[1,2,3]` it returns `none`. -/
theorem check_game_end_spec :
    (∀ s : GameState,
      (checkGameEnd s = some GameEndReason.timer_expired ↔
        (∃ t, s.gameTimeRemainingMs = some t ∧ t ≤ 0) ∨
        (∃ t, s.turnTimeRemainingMs = some t ∧ t ≤ 0))
      ∧ (checkGameEnd s = some GameEndReason.deck_empty ↔
          ¬ ((∃ t, s.gameTimeRemainingMs = some t ∧ t ≤ 0) ∨
             (∃ t, s.turnTimeRemainingMs = some t ∧ t ≤ 0))
          ∧ s.settings.infiniteDeck = false ∧ s.deck = []
          ∧ hasValidSet (s.activeCards.map (fun c => c.value)) = false)
      ∧ (checkGameEnd s = none ↔
          ¬ ((∃ t, s.gameTimeRemainingMs = some t ∧ t ≤ 0) ∨
             (∃ t, s.turnTimeRemainingMs = some t ∧ t ≤ 0))
          ∧ ¬ (s.settings.infiniteDeck = false ∧ s.deck = []
               ∧ hasValidSet (s.activeCards.map (fun c => c.value)) = false)))
    ∧ checkGameEnd stateDeckEmptyStuck = some GameEndReason.deck_empty
    ∧ checkGameEnd stateDeckEmptyLive = none := by
  refine ⟨?_, by decide, by decide⟩
  intro s
  have hgame : (match s.gameTimeRemainingMs with
      | some t => decide (t ≤ 0)
      | none => false) = true ↔ (∃ t, s.gameTimeRemainingMs = some t ∧ t ≤ 0) := by
    cases s.gameTimeRemainingMs <;> simp
  have hturn : (match s.turnTimeRemainingMs with
      | some t => decide (t ≤ 0)
      | none => false) = true ↔ (∃ t, s.turnTimeRemainingMs = some t ∧ t ≤ 0) := by
    cases s.turnTimeRemainingMs <;> simp
  have hdeck : (s.deck.length = 0 && !s.settings.infiniteDeck
        && !(hasValidSet (s.activeCards.map (fun c => c.value)))) = true ↔
      (s.settings.infiniteDeck = false ∧ s.deck = []
        ∧ hasValidSet (s.activeCards.map (fun c => c.value)) = false) := by
    simp [List.length_eq_zero]
    tauto
  unfold checkGameEnd
  split
  next hg =>
    have hG := hgame.mp hg
    simp [hG]
  next hg =>
    have hG := (not_congr hgame).mp hg
    split
    next ht =>
      have hT := hturn.mp ht
      simp [hG, hT]
    next ht =>
      have hT := (not_congr hturn).mp ht
      split
      next hd =>
        have hD := hdeck.mp hd
        simp [hG, hT, hD]
      next hd =>
        have hD := (not_congr hdeck).mp hd
        simp [hG, hT, hD]

/-- C7 witness: the characterization applied at the empty-deck, stuck
fixture. -/
theorem check_game_end_spec_witness :
    checkGameEnd stateDeckEmptyStuck = some GameEndReason.deck_empty ∧
    checkGameEnd stateDeckEmptyLive = none :=
  ⟨check_game_end_spec.2.1, check_game_end_spec.2.2⟩

/-! ## C10 — claimSet accepts duplicated card ids -/

set_option maxRecDepth 100000 in
/-- C10: `claimSet` does not require distinct card ids. In the freshly
created — hence reachable — game `stateDupReach`, whose table holds
`a = card59` (value 60) beside `b, c, d = card0, card1, card2` (values
`1, 2, 3` with `1 ^^^ 2 ^^^ 3 = 0`), claiming `[a, a, b, c, d]`
succeeds, awards 5 points under `cards` scoring, appends the instance
`a` to the claiming player's pile twice while the table loses its single
copy of `a` only once, raising the deck+table+piles total from 63 to
64. -/
theorem claim_accepts_duplicate_ids :
    stateDupReach.activeCards
      = [⟨"card0", 1⟩, ⟨"card1", 2⟩, ⟨"card2", 3⟩, ⟨"card59", 60⟩,
         ⟨"card58", 59⟩, ⟨"card57", 58⟩, ⟨"card56", 57⟩]
  ∧ (claimSet [] exIds2 stateDupReach "A" dupClaimIds).2 = 5
  ∧ ((claimSet [] exIds2 stateDupReach "A" dupClaimIds).1.players.map
      (fun p => p.claimedCards))
      = [[⟨"card59", 60⟩, ⟨"card59", 60⟩, ⟨"card0", 1⟩, ⟨"card1", 2⟩,
          ⟨"card2", 3⟩]]
  ∧ ((claimSet [] exIds2 stateDupReach "A" dupClaimIds).1.activeCards.map
      (fun c => c.id)).contains "card59" = false
  ∧ totalCards stateDupReach = 63
  ∧ totalCards (claimSet [] exIds2 stateDupReach "A" dupClaimIds).1 = 64 := by
  decide

/-! ## C5 — double toggle -/

/-- Reduction of `toggleCardSelection` when the player is found and the
card is on the table. -/
theorem toggle_eq_of_found (s : GameState) (p : String) (c : CardId) (i : Nat)
    (player player' : Player)
    (heq : s.players.findIdx? (fun q => q.id = p) = some i)
    (hget : s.players[i]? = some player)
    (hcard : s.activeCards.any (fun cd => cd.id = c) = true)
    (hp' : player' = { player with
      selectedCardIds := if player.selectedCardIds.contains c then
          player.selectedCardIds.filter (fun cid => cid ≠ c)
        else player.selectedCardIds ++ [c] }) :
    toggleCardSelection s p c = { s with players := s.players.set i player' } := by
  subst hp'
  unfold toggleCardSelection
  rw [heq]
  simp [hcard, hget]

/-- C5 counterexample: player `A` has `c1` selected first and `c2`
second; toggling `c1` twice yields selection `[c2, c1]`, not the
original `[c1, c2]` — the state is not restored. -/
theorem toggle_toggle_counterexample :
    toggleCardSelection (toggleCardSelection stateMidSelection "A" "c1") "A" "c1"
      ≠ stateMidSelection := by
  decide

/-- C5 (amended): toggling the same card twice restores the exact
original state whenever the card is not currently in the toggled
player's `selectedCardIds` (other players' selections are irrelevant:
a toggle only rewrites the entry of the player it found); when the card
is already selected mid-list, the double toggle instead moves it to the
end of the selection, as the counterexample shows. -/
theorem toggle_toggle_id_of_unselected (s : GameState) (p : String) (c : CardId)
    (h : ∀ pl ∈ s.players, pl.id = p → c ∉ pl.selectedCardIds) :
    toggleCardSelection (toggleCardSelection s p c) p c = s := by
  cases heq : s.players.findIdx? (fun q => q.id = p) with
  | none =>
      have hinner : toggleCardSelection s p c = s := by
        unfold toggleCardSelection
        rw [heq]
      rw [hinner, hinner]
  | some i =>
      have hi : i < s.players.length := findIdx?_lt_length heq
      have hget : s.players[i]? = some s.players[i] := List.getElem?_eq_getElem hi
      have hmem : s.players[i] ∈ s.players := List.getElem_mem hi
      by_cases hcard : s.activeCards.any (fun cd => cd.id = c) = true
      case neg =>
        have hcard' : s.activeCards.any (fun cd => cd.id = c) = false := by
          rwa [Bool.not_eq_true] at hcard
        have hinner : toggleCardSelection s p c = s := by
          unfold toggleCardSelection
          rw [heq, hcard']
          simp
        rw [hinner, hinner]
      case pos =>
        set sel : List CardId := (s.players[i]).selectedCardIds with hseldef
        set q1 : Player := { s.players[i] with selectedCardIds := sel ++ [c] }
          with hq1def
        set s1 : GameState := { s with players := s.players.set i q1 } with hs1def
        have hpid : (s.players[i]).id = p := by
          have := findIdx?_pred heq hi
          simpa using this
        have hnot : c ∉ sel := h _ hmem hpid
        have hcontains : sel.contains c = false := by simpa using hnot
        have hcontains2 : (sel ++ [c]).contains c = true := by simp
        have hfilter : (sel ++ [c]).filter (fun cid => cid ≠ c) = sel := by
          rw [List.filter_append]
          have h2 : ([c] : List CardId).filter (fun cid => cid ≠ c) = [] := by
            simp
          have h3 : sel.filter (fun cid => cid ≠ c) = sel := by
            rw [List.filter_eq_self]
            intro a ha
            simp only [ne_eq, decide_eq_true_eq]
            intro hac
            exact hnot (hac ▸ ha)
          rw [h2, h3, List.append_nil]
        have hp1 : q1 = { s.players[i] with
            selectedCardIds := if sel.contains c then
                sel.filter (fun cid => cid ≠ c)
              else sel ++ [c] } := by
          rw [hcontains, hq1def]
          simp
        have h1 : toggleCardSelection s p c = s1 := by
          rw [toggle_eq_of_found s p c i (s.players[i]) q1 heq hget hcard hp1,
            hs1def]
        have heq2 : s1.players.findIdx? (fun q => q.id = p) = some i := by
          show (s.players.set i q1).findIdx?
            (fun (q : Player) => decide (q.id = p)) 0 = some i
          rw [findIdx?_set_congr (fun (q : Player) => decide (q.id = p))
            s.players i q1 hi rfl 0]
          exact heq
        have hget2 : s1.players[i]? = some q1 := List.getElem?_set_self hi
        have hp2 : (s.players[i]) = { q1 with
            selectedCardIds := if q1.selectedCardIds.contains c then
                q1.selectedCardIds.filter (fun cid => cid ≠ c)
              else q1.selectedCardIds ++ [c] } := by
          show (s.players[i]) = { q1 with
            selectedCardIds := if (sel ++ [c]).contains c then
                (sel ++ [c]).filter (fun cid => cid ≠ c)
              else (sel ++ [c]) ++ [c] }
          rw [hcontains2, if_pos rfl, hfilter]
        have h2 : toggleCardSelection s1 p c = s := by
          rw [toggle_eq_of_found s1 p c i q1 (s.players[i]) heq2 hget2 hcard hp2]
          show ({ s with
            players := (s.players.set i q1).set i (s.players[i]) } : GameState) = s
          rw [List.set_set, set_getElem_self s.players i hi]
        rw [h1, h2]

/-- C5 witness for the amended statement: player `A` of the timer
fixture has an empty selection, so double-toggling `c1` restores the
state exactly. -/
theorem toggle_toggle_id_witness :
    toggleCardSelection (toggleCardSelection stateTimer "A" "c1") "A" "c1"
      = stateTimer :=
  toggle_toggle_id_of_unselected stateTimer "A" "c1" (by decide)

/-! ## C6 — idempotent rejoin -/

/-- C6 counterexample: `joinLobby` checks capacity before membership, so
at maximum capacity (8 of 8) an existing member's rejoin returns
`LOBBY_FULL` instead of the existing membership. -/
theorem rejoin_full_lobby_counterexample :
    (fullLobby.players.map (fun q => q.id)).contains "p1" = true
  ∧ joinLobby 8 [("ABCDEF", fullLobby)] "ABCDEF" "p1" "Player 1"
      = Except.error ErrorCode.LOBBY_FULL := by
  decide

/-- C6 (amended): for every existing lobby strictly below capacity, a
join by an existing member returns the existing lobby and membership
unchanged — no duplicate, no error; at capacity the capacity check fires
first and the rejoin errors with `LOBBY_FULL`, as the counterexample
shows. -/
theorem rejoin_idempotent_below_capacity (maxPlayers : Nat)
    (lobbies : List (String × LobbyState)) (code pid pname : String)
    (lobby : LobbyState) (p : Player)
    (hlook : lobbies.lookup code = some lobby)
    (hcap : lobby.players.length < maxPlayers)
    (hfind : lobby.players.find? (fun q => q.id = pid) = some p) :
    joinLobby maxPlayers lobbies code pid pname = Except.ok (lobby, p) := by
  unfold joinLobby
  simp only [hlook]
  rw [if_neg (Nat.not_le.mpr hcap)]
  simp only [hfind]

/-- C6 witness: rejoining a two-player lobby as `p1` returns the lobby
and `p1`'s existing membership unchanged. -/
theorem rejoin_idempotent_witness :
    joinLobby 8 [("ABCDEF", smallLobby)] "ABCDEF" "p1" "Newname"
      = Except.ok (smallLobby, mkPlayer "p1" 1) :=
  rejoin_idempotent_below_capacity 8 [("ABCDEF", smallLobby)] "ABCDEF" "p1"
    "Newname" smallLobby (mkPlayer "p1" 1) (by decide) (by decide) (by decide)

/-! ## C4 — pending-slot consumption -/

/-- C4 counterexample: an authorized `confirmSet` whose delegated claim
fails (the pending ids are no longer on the table) returns the
`NOT_A_VALID_SET` error without clearing the pending slot. -/
theorem confirm_failed_leaves_pending_counterexample :
    (instStalePending.pendingSet.map (fun ps => ps.playerId)) = some "A"
  ∧ (managerConfirmSet [] exIds instStalePending "A").1
      = Except.error ErrorCode.NOT_A_VALID_SET
  ∧ (managerConfirmSet [] exIds instStalePending "A").2.pendingSet
      = instStalePending.pendingSet := by
  decide

/-- C4 (amended): an authorized `confirmSet` clears the pending slot
exactly when the delegated claim succeeds; when the delegated claim
fails, the error is returned and the pending slot is left in place. -/
theorem confirm_consumes_slot_iff (js : List Nat) (ids : Nat → CardId)
    (g : GameInstance) (playerId : String) (pending : PendingSet)
    (hp : g.pendingSet = some pending) (hauth : pending.playerId = playerId) :
    ((managerConfirmSet js ids g playerId).2.pendingSet = none
      ↔ ∃ payload, (managerConfirmSet js ids g playerId).1 = Except.ok payload)
  ∧ ((∃ e, (managerConfirmSet js ids g playerId).1 = Except.error e) →
      (managerConfirmSet js ids g playerId).2.pendingSet = some pending) := by
  unfold managerConfirmSet
  simp only [hp]
  rw [if_neg (by simp [hauth])]
  unfold managerClaimSet
  by_cases h0 : (claimSet js ids g.state playerId pending.cardIds).2 = 0
  · rw [if_pos h0]
    simp [hp]
  · rw [if_neg h0]
    cases hend : checkGameEnd (claimSet js ids g.state playerId pending.cardIds).1
    · simp only [hend]
      simp
    · simp only [hend]
      simp

/-- C4 witness for the amended statement: with a valid pending set, the
authorized confirm succeeds and the slot is cleared. -/
theorem confirm_consumes_slot_iff_witness :
    (((managerConfirmSet [] exIds instGoodPending "A").2.pendingSet = none
      ↔ ∃ payload,
          (managerConfirmSet [] exIds instGoodPending "A").1 = Except.ok payload)
  ∧ ((∃ e, (managerConfirmSet [] exIds instGoodPending "A").1 = Except.error e) →
      (managerConfirmSet [] exIds instGoodPending "A").2.pendingSet
        = some { playerId := "A", cardIds := ["c1", "c2", "c3"],
                 timestamp := 0 })) :=
  confirm_consumes_slot_iff [] exIds instGoodPending "A"
    { playerId := "A", cardIds := ["c1", "c2", "c3"], timestamp := 0 } rfl rfl

/-! ## C1 — first-writer-wins claim race -/

theorem filterMap_length_lt {α β : Type} {f : α → Option β} :
    ∀ {l : List α}, (∃ a ∈ l, f a = none) → (l.filterMap f).length < l.length := by
  intro l
  induction l with
  | nil =>
      rintro ⟨a, ha, _⟩
      cases ha
  | cons x t ih =>
      rintro ⟨a, ha, hfa⟩
      cases hfx : f x with
      | none =>
          have hle := List.length_filterMap_le f t
          simp only [List.filterMap_cons, hfx, List.length_cons]
          omega
      | some b =>
          have ha' : a ∈ t := by
            cases ha with
            | head =>
                rw [hfa] at hfx
                cases hfx
            | tail _ h => exact h
          have hlt := ih ⟨a, ha', hfa⟩
          simp only [List.filterMap_cons, hfx, List.length_cons]
          omega

/-- A claim whose card ids include one that is not on the table fails
closed. -/
theorem claimSet_fails_of_missing (js : List Nat) (ids : Nat → CardId)
    (s : GameState) (playerId : String) (cardIds : List CardId)
    (hmiss : ∃ cid ∈ cardIds,
      s.activeCards.find? (fun c => c.id = cid) = none) :
    claimSet js ids s playerId cardIds = (s, 0) := by
  unfold claimSet
  cases hfi : s.players.findIdx? (fun p => p.id = playerId) with
  | none => simp only [hfi]
  | some i =>
      have hlt : (cardIds.filterMap
          (fun cid => s.activeCards.find? (fun c => c.id = cid))).length
          < cardIds.length := filterMap_length_lt hmiss
      simp only [hfi]
      rw [if_pos (by omega)]

/-- Reduction of `claimSet` when all three guards pass. -/
theorem claimSet_eq_of_success (js : List Nat) (ids : Nat → CardId)
    (s : GameState) (playerId : String) (cardIds : List CardId)
    (i : Nat) (claimed : List CardInstance)
    (newActive newDeck : List CardInstance) (pts : Nat)
    (heq : s.players.findIdx? (fun p => p.id = playerId) = some i)
    (hclaimed : cardIds.filterMap
      (fun cid => s.activeCards.find? (fun c => c.id = cid)) = claimed)
    (hlen : claimed.length = cardIds.length)
    (hvalid : isValidSet (claimed.map (fun c => c.value)) = true)
    (hna : newActive = s.activeCards.filter (fun c => !(cardIds.contains c.id)))
    (hnd2 : newDeck = (if s.settings.infiniteDeck then
        returnCardsToDeck js ids s.deck claimed else s.deck))
    (hpts : pts = (if s.settings.scoringMode.getD ScoringMode.cards
        = ScoringMode.cards then claimed.length else 1)) :
    claimSet js ids s playerId cardIds =
      ({ s with
          deck := (dealCards newDeck (ACTIVE_CARD_COUNT - newActive.length)).2
          activeCards := newActive ++
            (dealCards newDeck (ACTIVE_CARD_COUNT - newActive.length)).1
          players := claimUpdatePlayers claimed cardIds pts i s.players
          turnTimeRemainingMs := s.settings.turnTimer.map
            (fun t => t.durationMs) },
       pts) := by
  subst hclaimed hna hnd2 hpts
  unfold claimSet
  simp only [heq]
  rw [if_neg (by simp [hlen])]
  rw [if_neg (by simp [hvalid])]

theorem claimUpdatePlayers_findIdx? (claimed : List CardInstance)
    (cardIds : List CardId) (pts idx : Nat) (players : List Player)
    (pid : String) (st : Nat) :
    (claimUpdatePlayers claimed cardIds pts idx players).findIdx?
      (fun q => q.id = pid) st = players.findIdx? (fun q => q.id = pid) st := by
  unfold claimUpdatePlayers
  exact findIdx?_mapWithIndex _ (fun (q : Player) => decide (q.id = pid))
    (fun j x => by by_cases hj : j = idx <;> simp [hj]) players 0 st

theorem claimUpdatePlayers_getElem_idx (claimed : List CardInstance)
    (cardIds : List CardId) (pts idx : Nat) (players : List Player)
    (h : idx < players.length) :
    (claimUpdatePlayers claimed cardIds pts idx players)[idx]?
      = some { players[idx] with
          claimedCards := (players[idx]).claimedCards ++ claimed,
          selectedCardIds := [],
          score := (players[idx]).score + pts } := by
  unfold claimUpdatePlayers
  rw [getElem?_mapWithIndex, List.getElem?_eq_getElem h]
  simp

theorem claimUpdatePlayers_mem (claimed : List CardInstance)
    (cardIds : List CardId) (pts idx : Nat) (players : List Player)
    {p' : Player} (h : p' ∈ claimUpdatePlayers claimed cardIds pts idx players) :
    p'.selectedCardIds = [] ∨ ∃ x : Player,
      p'.selectedCardIds = x.selectedCardIds.filter
        (fun cid => !(cardIds.contains cid)) := by
  unfold claimUpdatePlayers at h
  obtain ⟨j, x, _, _, hx, hpx⟩ := mem_mapWithIndex h
  subst hpx
  by_cases hj : j = idx
  · left
    simp [hj]
  · right
    exact ⟨x, by simp [hj]⟩

/-- C1: with a valid set `c1,c2,c3` on the table (distinct instances of
duplicate-free table ids, deck and regenerated ids disjoint from the
claimed ones), player `A`'s `claimSet` succeeds: it awards nonzero
points, appends `c1,c2,c3` to `A`'s claimed pile, and strips the three
ids from every player's selection (in particular `B`'s). A subsequent
`claimSet` by `B` with the same three ids returns the state unchanged
with 0 points, which the manager layer surfaces as `NOT_A_VALID_SET`,
leaving the instance untouched. -/
theorem claim_race_first_writer_wins
    (js js' : List Nat) (ids ids' : Nat → CardId) (s : GameState)
    (A B : String) (iA : Nat) (c1 c2 c3 : CardInstance)
    (pend : Option PendingSet)
    (hiA : s.players.findIdx? (fun p => p.id = A) = some iA)
    (hc1 : c1 ∈ s.activeCards) (hc2 : c2 ∈ s.activeCards)
    (hc3 : c3 ∈ s.activeCards)
    (hnodup : (s.activeCards.map (fun c => c.id)).Nodup)
    (hvalid : isValidSet [c1.value, c2.value, c3.value] = true)
    (hdeck : ∀ d ∈ s.deck, d.id ≠ c1.id ∧ d.id ≠ c2.id ∧ d.id ≠ c3.id)
    (hfresh : ∀ k, k < 3 → ids k ≠ c1.id ∧ ids k ≠ c2.id ∧ ids k ≠ c3.id) :
    (claimSet js ids s A [c1.id, c2.id, c3.id]).2 ≠ 0
  ∧ (∃ pA pA', s.players.find? (fun p => p.id = A) = some pA
      ∧ (claimSet js ids s A [c1.id, c2.id, c3.id]).1.players.find?
          (fun p => p.id = A) = some pA'
      ∧ pA'.claimedCards = pA.claimedCards ++ [c1, c2, c3])
  ∧ (∀ p' ∈ (claimSet js ids s A [c1.id, c2.id, c3.id]).1.players,
      c1.id ∉ p'.selectedCardIds ∧ c2.id ∉ p'.selectedCardIds
        ∧ c3.id ∉ p'.selectedCardIds)
  ∧ claimSet js' ids' (claimSet js ids s A [c1.id, c2.id, c3.id]).1 B
      [c1.id, c2.id, c3.id]
      = ((claimSet js ids s A [c1.id, c2.id, c3.id]).1, 0)
  ∧ managerClaimSet js' ids'
      ⟨(claimSet js ids s A [c1.id, c2.id, c3.id]).1, pend⟩ B
      [c1.id, c2.id, c3.id]
      = (Except.error ErrorCode.NOT_A_VALID_SET,
         ⟨(claimSet js ids s A [c1.id, c2.id, c3.id]).1, pend⟩) := by
  have hiAlt : iA < s.players.length := findIdx?_lt_length hiA
  have hfind1 : s.activeCards.find? (fun c => c.id = c1.id) = some c1 :=
    find?_key_eq (fun c => c.id) hc1 hnodup
  have hfind2 : s.activeCards.find? (fun c => c.id = c2.id) = some c2 :=
    find?_key_eq (fun c => c.id) hc2 hnodup
  have hfind3 : s.activeCards.find? (fun c => c.id = c3.id) = some c3 :=
    find?_key_eq (fun c => c.id) hc3 hnodup
  have hclaimed : ([c1.id, c2.id, c3.id] : List CardId).filterMap
      (fun cid => s.activeCards.find? (fun c => c.id = cid)) = [c1, c2, c3] := by
    simp only [List.filterMap_cons, hfind1, hfind2, hfind3, List.filterMap_nil]
  have hE := claimSet_eq_of_success js ids s A [c1.id, c2.id, c3.id] iA
    [c1, c2, c3] _ _ _ hiA hclaimed rfl hvalid rfl rfl rfl
  have hactive : (claimSet js ids s A [c1.id, c2.id, c3.id]).1.activeCards
      = s.activeCards.filter
          (fun c => !(([c1.id, c2.id, c3.id] : List CardId).contains c.id))
        ++ (dealCards
            (if s.settings.infiniteDeck then
              returnCardsToDeck js ids s.deck [c1, c2, c3] else s.deck)
            (ACTIVE_CARD_COUNT - (s.activeCards.filter
              (fun c => !(([c1.id, c2.id, c3.id] : List CardId).contains
                c.id))).length)).1 := by
    rw [hE]
  have hfindnone : (claimSet js ids s A
        [c1.id, c2.id, c3.id]).1.activeCards.find?
      (fun c => c.id = c1.id) = none := by
    rw [hactive, List.find?_eq_none]
    intro x hxmem
    simp only [decide_eq_true_eq]
    intro hxeq
    rw [List.mem_append] at hxmem
    cases hxmem with
    | inl hfil =>
        have h2 := (List.mem_filter.mp hfil).2
        have h2' : ¬ (x.id = c1.id ∨ x.id = c2.id ∨ x.id = c3.id) := by
          simpa using h2
        exact h2' (Or.inl hxeq)
    | inr hdealt =>
        have hxdeck : x ∈ (if s.settings.infiniteDeck then
            returnCardsToDeck js ids s.deck [c1, c2, c3] else s.deck) := by
          have hin := List.mem_append_left
            (dealCards (if s.settings.infiniteDeck then
              returnCardsToDeck js ids s.deck [c1, c2, c3] else s.deck)
              (ACTIVE_CARD_COUNT - (s.activeCards.filter
                (fun c => !(([c1.id, c2.id, c3.id] : List CardId).contains
                  c.id))).length)).2 hdealt
          exact (dealCards_perm _ _).mem_iff.mp hin
        by_cases hinf : s.settings.infiniteDeck = true
        · rw [if_pos hinf] at hxdeck
          unfold returnCardsToDeck at hxdeck
          have hx2 := (shuffle_perm js _).mem_iff.mp hxdeck
          rw [List.mem_append] at hx2
          cases hx2 with
          | inl hx3 => exact (hdeck x hx3).1 hxeq
          | inr hx3 =>
              obtain ⟨k, a, _, hk3, _, hxa⟩ := mem_mapWithIndex hx3
              subst hxa
              exact (hfresh k (by simpa using hk3)).1 hxeq
        · rw [if_neg hinf] at hxdeck
          exact (hdeck x hxdeck).1 hxeq
  have h4 : claimSet js' ids' (claimSet js ids s A [c1.id, c2.id, c3.id]).1 B
      [c1.id, c2.id, c3.id]
      = ((claimSet js ids s A [c1.id, c2.id, c3.id]).1, 0) :=
    claimSet_fails_of_missing js' ids' _ B [c1.id, c2.id, c3.id]
      ⟨c1.id, by simp, hfindnone⟩
  refine ⟨?_, ?_, ?_, h4, ?_⟩
  · rw [hE]
    show (if s.settings.scoringMode.getD ScoringMode.cards = ScoringMode.cards
      then ([c1, c2, c3] : List CardInstance).length else 1) ≠ 0
    split <;> simp
  · refine ⟨s.players[iA],
      { s.players[iA] with
        claimedCards := (s.players[iA]).claimedCards ++ [c1, c2, c3],
        selectedCardIds := [],
        score := (s.players[iA]).score +
          (if s.settings.scoringMode.getD ScoringMode.cards
              = ScoringMode.cards then
            ([c1, c2, c3] : List CardInstance).length else 1) },
      ?_, ?_, rfl⟩
    · rw [find?_eq_findIdx?_bind, hiA]
      show s.players[iA]? = some s.players[iA]
      exact List.getElem?_eq_getElem hiAlt
    · rw [hE]
      show (claimUpdatePlayers [c1, c2, c3] [c1.id, c2.id, c3.id] _ iA
        s.players).find? (fun p => p.id = A) = _
      rw [find?_eq_findIdx?_bind, claimUpdatePlayers_findIdx?, hiA]
      show (claimUpdatePlayers [c1, c2, c3] [c1.id, c2.id, c3.id] _ iA
        s.players)[iA]? = _
      rw [claimUpdatePlayers_getElem_idx _ _ _ _ _ hiAlt]
  · rw [hE]
    intro p' hp'
    have hp'2 := claimUpdatePlayers_mem _ _ _ _ _ hp'
    rcases hp'2 with hsel | ⟨x, hsel⟩
    · rw [hsel]
      simp
    · rw [hsel]
      refine ⟨?_, ?_, ?_⟩ <;>
      · intro hmem
        have h2 := (List.mem_filter.mp hmem).2
        simp at h2
  · unfold managerClaimSet
    simp only [h4]
    simp

/-- C1 witness: in the race fixture, `A`'s claim of `c1,c2,c3` awards
points and `B`'s subsequent claim of the same ids returns the state
unchanged with 0 points. -/
theorem claim_race_witness :
    (claimSet [] exIds stateRace "A" ["c1", "c2", "c3"]).2 ≠ 0
  ∧ claimSet [] exIds2 (claimSet [] exIds stateRace "A" ["c1", "c2", "c3"]).1
      "B" ["c1", "c2", "c3"]
      = ((claimSet [] exIds stateRace "A" ["c1", "c2", "c3"]).1, 0) := by
  have h := claim_race_first_writer_wins [] [] exIds exIds2 stateRace "A" "B" 0
    ⟨"c1", 1⟩ ⟨"c2", 2⟩ ⟨"c3", 3⟩ none (by decide) (by decide) (by decide)
    (by decide) (by decide) (by decide) (by decide) (by decide)
  exact ⟨h.1, h.2.2.2.1⟩

/-! ## C3 — conservation law -/

theorem map_set_eq_of_eq {α β : Type} (g : α → β) (l : List α) (i : Nat) (x : α)
    (h : i < l.length) (hg : g x = g l[i]) : (l.set i x).map g = l.map g := by
  rw [List.map_set, hg, ← List.getElem_map g (h := by simpa using h)]
  exact set_getElem_self (l.map g) i (by simpa using h)

theorem totalCards_set_player (s : GameState) (i : Nat) (x : Player)
    (hi : i < s.players.length)
    (hg : x.claimedCards.length = (s.players[i]).claimedCards.length) :
    totalCards { s with players := s.players.set i x } = totalCards s := by
  unfold totalCards
  rw [map_set_eq_of_eq (fun q => q.claimedCards.length) s.players i x hi hg]

theorem conserved_toggle (s : GameState) (p : String) (c : CardId)
    (h : conserved s) : conserved (toggleCardSelection s p c) := by
  cases heq : s.players.findIdx? (fun q => q.id = p) with
  | none =>
      have hsame : toggleCardSelection s p c = s := by
        unfold toggleCardSelection
        rw [heq]
      rw [hsame]
      exact h
  | some i =>
      by_cases hcard : s.activeCards.any (fun cd => cd.id = c) = true
      case neg =>
        have hcard' : s.activeCards.any (fun cd => cd.id = c) = false := by
          rwa [Bool.not_eq_true] at hcard
        have hsame : toggleCardSelection s p c = s := by
          unfold toggleCardSelection
          rw [heq, hcard']
          simp
        rw [hsame]
        exact h
      case pos =>
        have hi : i < s.players.length := findIdx?_lt_length heq
        rw [toggle_eq_of_found s p c i s.players[i]
          { s.players[i] with selectedCardIds :=
              if (s.players[i]).selectedCardIds.contains c then
                (s.players[i]).selectedCardIds.filter (fun cid => cid ≠ c)
              else (s.players[i]).selectedCardIds ++ [c] }
          heq (List.getElem?_eq_getElem hi) hcard rfl]
        exact ⟨(totalCards_set_player s i
          { s.players[i] with selectedCardIds :=
              if (s.players[i]).selectedCardIds.contains c then
                (s.players[i]).selectedCardIds.filter (fun cid => cid ≠ c)
              else (s.players[i]).selectedCardIds ++ [c] }
          hi rfl).trans h.1, h.2.1, h.2.2⟩

theorem conserved_clear (s : GameState) (p : String)
    (h : conserved s) : conserved (clearSelection s p) := by
  cases heq : s.players.findIdx? (fun q => q.id = p) with
  | none =>
      have hsame : clearSelection s p = s := by
        unfold clearSelection
        rw [heq]
      rw [hsame]
      exact h
  | some i =>
      have hi : i < s.players.length := findIdx?_lt_length heq
      have hred : clearSelection s p =
          { s with
            players := s.players.set i
              { s.players[i] with selectedCardIds := ([] : List CardId) } } := by
        unfold clearSelection
        simp only [heq, List.getElem?_eq_getElem hi]
      rw [hred]
      exact ⟨(totalCards_set_player s i
        { s.players[i] with selectedCardIds := ([] : List CardId) }
        hi rfl).trans h.1, h.2.1, h.2.2⟩

theorem conserved_tick (s : GameState) (ms : Int)
    (h : conserved s) : conserved (updateTimers s ms) := h

theorem conserved_finish (s : GameState) (r : GameEndReason)
    (h : conserved s) : conserved (endGame s r) := h

theorem sum_resetPlayers :
    ∀ (l : List Player) (j0 : Nat),
      ((mapWithIndex (fun index p =>
          { p with claimedCards := [], selectedCardIds := [], score := 0,
                   playerNumber := index + 1 }) j0 l).map
        (fun q => q.claimedCards.length)).sum = 0 := by
  intro l
  induction l with
  | nil => intro j0; rfl
  | cons a t ih =>
      intro j0
      simp [mapWithIndex, ih (j0 + 1)]

theorem sumPiles_claimUpdateAux (claimed : List CardInstance)
    (cardIds : List CardId) (pts idx : Nat) :
    ∀ (l : List Player) (j0 : Nat),
      ((mapWithIndex (fun i p =>
          if i = idx then
            { p with claimedCards := p.claimedCards ++ claimed,
                     selectedCardIds := [],
                     score := p.score + pts }
          else
            { p with selectedCardIds :=
                p.selectedCardIds.filter (fun cid => !(cardIds.contains cid)) })
        j0 l).map (fun q => q.claimedCards.length)).sum
      = (l.map (fun q => q.claimedCards.length)).sum
        + (if j0 ≤ idx ∧ idx < j0 + l.length then claimed.length else 0) := by
  intro l
  induction l with
  | nil =>
      intro j0
      have h0 : ¬(j0 ≤ idx ∧ idx < j0 + ([] : List Player).length) := by
        simp only [List.length_nil]
        omega
      rw [if_neg h0]
      simp [mapWithIndex]
  | cons a t ih =>
      intro j0
      simp only [mapWithIndex, List.map_cons, List.sum_cons, ih (j0 + 1),
        List.length_cons]
      by_cases hj : j0 = idx
      · rw [if_pos hj]
        have h1 : ¬(j0 + 1 ≤ idx ∧ idx < j0 + 1 + t.length) := by omega
        have h2 : j0 ≤ idx ∧ idx < j0 + (t.length + 1) := by omega
        rw [if_neg h1, if_pos h2]
        simp only [List.length_append]
        omega
      · rw [if_neg hj]
        by_cases hin : j0 + 1 ≤ idx ∧ idx < j0 + 1 + t.length
        · rw [if_pos hin, if_pos (by omega)]
          simp only [List.length_append]
          omega
        · rw [if_neg hin, if_neg (by omega)]
          simp only [List.length_append]
          omega

theorem sumPiles_claimUpdatePlayers (claimed : List CardInstance)
    (cardIds : List CardId) (pts idx : Nat) (l : List Player)
    (hidx : idx < l.length) :
    ((claimUpdatePlayers claimed cardIds pts idx l).map
        (fun q => q.claimedCards.length)).sum
      = (l.map (fun q => q.claimedCards.length)).sum + claimed.length := by
  unfold claimUpdatePlayers
  rw [sumPiles_claimUpdateAux claimed cardIds pts idx l 0,
    if_pos ⟨Nat.zero_le idx, by omega⟩]

theorem filter_contains_length (active : List CardInstance)
    (cardIds : List CardId)
    (hndA : (active.map (fun c => c.id)).Nodup) (hndC : cardIds.Nodup)
    (hsome : ∀ cid ∈ cardIds, ∃ c ∈ active, c.id = cid) :
    (active.filter (fun c => cardIds.contains c.id)).length
      = cardIds.length := by
  have hnd1 : ((active.filter (fun c => cardIds.contains c.id)).map
      (fun c => c.id)).Nodup :=
    ((List.filter_sublist active).map (fun c => c.id)).nodup hndA
  have h1 : ((active.filter (fun c => cardIds.contains c.id)).map
      (fun c => c.id)).Perm cardIds := by
    rw [List.perm_ext_iff_of_nodup hnd1 hndC]
    intro a
    constructor
    · intro ha
      rw [List.mem_map] at ha
      obtain ⟨c, hc, hca⟩ := ha
      rw [List.mem_filter] at hc
      have h3 : c.id ∈ cardIds := List.elem_iff.mp hc.2
      exact hca ▸ h3
    · intro ha
      obtain ⟨c, hc, hca⟩ := hsome a ha
      rw [List.mem_map]
      refine ⟨c, ?_, hca⟩
      rw [List.mem_filter]
      exact ⟨hc, List.elem_iff.mpr (hca ▸ ha)⟩
  have := h1.length_eq
  rwa [List.length_map] at this

theorem conserved_claim (js : List Nat) (ids : Nat → CardId) (s : GameState)
    (p : String) (cids : List CardId) (hcnd : cids.Nodup)
    (h : conserved s) : conserved ((claimSet js ids s p cids).1) := by
  cases heq : s.players.findIdx? (fun q => q.id = p) with
  | none =>
      have hsame : claimSet js ids s p cids = (s, 0) := by
        unfold claimSet
        simp only [heq]
      rw [hsame]
      exact h
  | some i =>
      have hi : i < s.players.length := findIdx?_lt_length heq
      by_cases hg1 : (cids.filterMap
          (fun cid => s.activeCards.find? (fun c => c.id = cid))).length
          ≠ cids.length
      · have hsame : claimSet js ids s p cids = (s, 0) := by
          unfold claimSet
          simp only [heq]
          rw [if_pos hg1]
        rw [hsame]
        exact h
      · have hlen : (cids.filterMap
            (fun cid => s.activeCards.find? (fun c => c.id = cid))).length
            = cids.length := by omega
        by_cases hg2 : isValidSet ((cids.filterMap
            (fun cid => s.activeCards.find? (fun c => c.id = cid))).map
            (fun c => c.value)) = true
        case neg =>
          have hg2' : (!(isValidSet ((cids.filterMap
              (fun cid => s.activeCards.find? (fun c => c.id = cid))).map
              (fun c => c.value)))) = true := by
            rw [Bool.not_eq_true] at hg2
            rw [hg2]
            rfl
          have hsame : claimSet js ids s p cids = (s, 0) := by
            unfold claimSet
            simp only [heq]
            rw [if_neg (by omega), if_pos hg2']
          rw [hsame]
          exact h
        case pos =>
          have hE := claimSet_eq_of_success js ids s p cids i _ _ _ _
            heq rfl hlen hg2 rfl rfl rfl
          rw [hE]
          have hinf : (if s.settings.infiniteDeck = true then
              returnCardsToDeck js ids s.deck (cids.filterMap
                (fun cid => s.activeCards.find? (fun c => c.id = cid)))
              else s.deck) = s.deck := by
            rw [h.2.2]
            simp
          rw [hinf]
          set claimed := cids.filterMap
            (fun cid => s.activeCards.find? (fun c => c.id = cid))
            with hclaimeddef
          set newActive := s.activeCards.filter
            (fun c => !(cids.contains c.id)) with hnadef
          set dealt := dealCards s.deck (ACTIVE_CARD_COUNT - newActive.length)
            with hddef
          have hdlen : dealt.1.length + dealt.2.length = s.deck.length := by
            have hq := (dealCards_perm (ACTIVE_CARD_COUNT - newActive.length)
              s.deck).length_eq
            rw [← hddef] at hq
            simpa using hq
          have hndDA : ((s.deck ++ s.activeCards).map (fun c => c.id)).Nodup :=
            h.2.1
          have hndA : (s.activeCards.map (fun c => c.id)).Nodup := by
            rw [List.map_append, List.nodup_append] at hndDA
            exact hndDA.2.1
          have hsome : ∀ cid ∈ cids, ∃ c ∈ s.activeCards, c.id = cid := by
            intro cid hcid
            cases hfind : s.activeCards.find? (fun c => c.id = cid) with
            | none =>
                exfalso
                have hq := filterMap_length_lt
                  (f := fun cid => s.activeCards.find? (fun c => c.id = cid))
                  ⟨cid, hcid, hfind⟩
                rw [← hclaimeddef] at hq
                omega
            | some c =>
                exact ⟨c, List.mem_of_find?_eq_some hfind,
                  by simpa using List.find?_some hfind⟩
          have hflen : (s.activeCards.filter
              (fun c => cids.contains c.id)).length = cids.length :=
            filter_contains_length s.activeCards cids hndA hcnd hsome
          have hsplit : newActive.length + cids.length = s.activeCards.length := by
            have hq := List.length_eq_length_filter_add
              (l := s.activeCards) (fun c => cids.contains c.id)
            rw [← hnadef] at hq
            omega
          have hclen : claimed.length = cids.length := by
            rw [hclaimeddef]
            exact hlen
          have hsum := sumPiles_claimUpdatePlayers claimed cids
            (if s.settings.scoringMode.getD ScoringMode.cards
                = ScoringMode.cards then claimed.length else 1)
            i s.players hi
          refine ⟨?_, ?_, h.2.2⟩
          · show dealt.2.length + (newActive ++ dealt.1).length
              + ((claimUpdatePlayers claimed cids
                  (if s.settings.scoringMode.getD ScoringMode.cards
                      = ScoringMode.cards then claimed.length else 1)
                  i s.players).map (fun q => q.claimedCards.length)).sum = 63
            rw [List.length_append, hsum]
            have h63 := h.1
            unfold totalCards at h63
            omega
          · show ((dealt.2 ++ (newActive ++ dealt.1)).map
              (fun c => c.id)).Nodup
            have hp2 : ((newActive ++ dealt.1) ++ dealt.2).Perm
                (newActive ++ s.deck) := by
              rw [List.append_assoc]
              refine List.Perm.append_left newActive ?_
              have hq := dealCards_perm (ACTIVE_CARD_COUNT - newActive.length)
                s.deck
              rw [← hddef] at hq
              exact hq
            have hp1 : (dealt.2 ++ (newActive ++ dealt.1)).Perm
                (s.deck ++ newActive) :=
              (List.perm_append_comm.trans hp2).trans List.perm_append_comm
            have hsub : (s.deck ++ newActive).Sublist
                (s.deck ++ s.activeCards) := by
              rw [hnadef]
              exact (List.append_sublist_append_left s.deck).mpr
                (List.filter_sublist s.activeCards)
            have hnd2 : ((s.deck ++ newActive).map (fun c => c.id)).Nodup :=
              (hsub.map (fun c => c.id)).nodup hndDA
            exact ((hp1.map (fun c => c.id)).nodup_iff).mpr hnd2

theorem conserved_create_general (js : List Nat)
    (deck0 : List CardInstance) (players : List Player)
    (settings : GameSettings) (now : Int)
    (hids : (deck0.map (fun c => c.id)).Nodup)
    (hlen : deck0.length = 63)
    (hset : settings.infiniteDeck = false) :
    conserved
      { phase := GamePhase.playing
        deck := (dealCards (shuffle js deck0) ACTIVE_CARD_COUNT).2
        activeCards := (dealCards (shuffle js deck0) ACTIVE_CARD_COUNT).1
        players := mapWithIndex (fun index p =>
            { p with claimedCards := [], selectedCardIds := [], score := 0,
                     playerNumber := index + 1 }) 0 players
        settings := settings
        turnTimeRemainingMs := settings.turnTimer.map (fun t => t.durationMs)
        gameTimeRemainingMs := settings.gameTimer.map (fun t => t.durationMs)
        endReason := none
        startedAt := some now } := by
  have hperm : ((dealCards (shuffle js deck0) ACTIVE_CARD_COUNT).1
      ++ (dealCards (shuffle js deck0) ACTIVE_CARD_COUNT).2).Perm deck0 :=
    (dealCards_perm _ _).trans (shuffle_perm js _)
  refine ⟨?_, ?_, hset⟩
  · have hl := hperm.length_eq
    simp only [List.length_append] at hl
    have hsum := sum_resetPlayers players 0
    unfold totalCards
    simp only [hsum]
    omega
  · have hp := (List.perm_append_comm.trans hperm).map (fun c => c.id)
    exact hp.nodup_iff.mpr hids

theorem conserved_fresh (js : List Nat) (ids : Nat → CardId)
    (players : List Player) (settings : GameSettings) (now : Int)
    (hids : ((createDeck ids).map (fun c => c.id)).Nodup)
    (hset : settings.infiniteDeck = false) :
    conserved (createMultiplayerGame js ids players settings now) := by
  have h63 : (createDeck ids).length = 63 := by
    unfold createDeck DECK_SIZE
    simp
  exact conserved_create_general js (createDeck ids) players settings now
    hids h63 hset

theorem conserved_applyOp (s : GameState) (op : GOp)
    (hop : ∀ js ids p cids, op = GOp.claim js ids p cids → cids.Nodup)
    (h : conserved s) : conserved (applyOp s op) := by
  cases op with
  | toggle p c => exact conserved_toggle s p c h
  | clear p => exact conserved_clear s p h
  | claim js ids p cids =>
      exact conserved_claim js ids s p cids (hop js ids p cids rfl) h
  | tick ms => exact conserved_tick s ms h
  | finish r => exact conserved_finish s r h

theorem conserved_applyOps : ∀ (ops : List GOp) (s : GameState),
    claimsNodup ops → conserved s → conserved (applyOps s ops) := by
  intro ops
  induction ops with
  | nil =>
      intro s _ h
      exact h
  | cons op rest ih =>
      intro s hops h
      show conserved (applyOps (applyOp s op) rest)
      refine ih (applyOp s op) (fun o ho => hops o (List.mem_cons_of_mem op ho))
        (conserved_applyOp s op ?_ h)
      intro js ids p cids heq
      exact hops op (List.mem_cons_self op rest) js ids p cids heq

/-- C3 (amended): in a finite-deck game created by
`createMultiplayerGame` (with a duplicate-free id supply), any sequence
of engine operations in which every `claimSet` call passes
duplicate-free card ids keeps `|deck| + |activeCards| + Σ|claimedCards|`
equal to 63 at every point. Under `infiniteDeck` the total is NOT
constant: each successful claim of `k` cards adds `k` to it, because the
claimed instances stay in the claimer's pile while fresh copies are
regenerated into the deck (see the counterexample); a `claimSet` called
with duplicated card ids also breaks conservation even in finite mode. -/
theorem conservation_finite (js : List Nat) (ids : Nat → CardId)
    (players : List Player) (settings : GameSettings) (now : Int)
    (ops : List GOp)
    (hids : ((createDeck ids).map (fun c => c.id)).Nodup)
    (hset : settings.infiniteDeck = false)
    (hops : claimsNodup ops) :
    totalCards (applyOps (createMultiplayerGame js ids players settings now)
      ops) = 63 :=
  (conserved_applyOps ops _ hops
    (conserved_fresh js ids players settings now hids hset)).1

set_option maxRecDepth 100000 in
/-- C3 witness: a freshly created finite game (identity shuffle, table
values 57..63) keeps exactly 63 cards after claiming the valid 4-set
`57,58,60,63`. -/
theorem conservation_finite_witness :
    totalCards (applyOps freshFinite
      [GOp.claim [] exIds2 "A" ["card56", "card57", "card59", "card62"]])
      = 63 := by
  have h := conservation_finite idStream63 exIds [mkPlayer "A" 1]
    DEFAULT_MULTIPLAYER_SETTINGS 0
    [GOp.claim [] exIds2 "A" ["card56", "card57", "card59", "card62"]]
    (by decide) (by decide) ?hops
  · exact h
  case hops =>
    intro op hop
    rw [List.mem_singleton] at hop
    subst hop
    intro js2 ids2 p2 cids2 heq
    cases heq
    decide

set_option maxRecDepth 100000 in
/-- C3 counterexample: in a freshly created infinite-deck game the total
starts at 63 but a single successful claim of the 4-card set
`57,58,60,63` raises it to 67 — the claimed instances are kept in the
player's pile while regenerated copies join the deck. -/
theorem conservation_counterexample :
    totalCards freshInfinite = 63
  ∧ (claimSet [] exIds2 freshInfinite "A" freshSetIds).2 = 4
  ∧ totalCards (claimSet [] exIds2 freshInfinite "A" freshSetIds).1 = 67 := by
  decide


/-! ## C8: the Fano-plane guarantee for `hasValidSet` -/

theorem xor_xor_rearrange (c X Y : Nat) : (c ^^^ X) ^^^ (c ^^^ Y) = X ^^^ Y := by
  rw [Nat.xor_assoc c X (c ^^^ Y), ← Nat.xor_assoc X c Y, Nat.xor_comm X c,
    Nat.xor_assoc c X Y, ← Nat.xor_assoc c c (X ^^^ Y), Nat.xor_self, Nat.zero_xor]

theorem xor_left_swap (c X Y : Nat) : c ^^^ (X ^^^ Y) = X ^^^ (c ^^^ Y) := by
  rw [← Nat.xor_assoc c X Y, Nat.xor_comm c X, Nat.xor_assoc X c Y]

theorem maskXorRec_zero : ∀ l : List Nat, maskXorRec l 0 = 0 := by
  intro l
  induction l with
  | nil => rfl
  | cons c cs ih => simp [maskXorRec, ih]

theorem foldl_cond_xor (w : Nat → Nat) (P : Nat → Bool) :
    ∀ (L : List Nat) (a : Nat),
      L.foldl (fun acc i => if P i then acc ^^^ w i else acc) a
        = a ^^^ L.foldl (fun acc i => if P i then acc ^^^ w i else acc) 0 := by
  intro L
  induction L with
  | nil => intro a; simp
  | cons x L ih =>
      intro a
      rw [List.foldl_cons, List.foldl_cons, ih, ih (if P x = true then 0 ^^^ w x else 0)]
      by_cases hP : P x = true
      · simp [hP, Nat.xor_assoc]
      · simp [hP]

theorem maskXor_eq_rec : ∀ (l : List Nat) (m : Nat), maskXor l m = maskXorRec l m := by
  intro l
  induction l with
  | nil => intro m; rfl
  | cons c cs ih =>
      intro m
      show (List.range (c :: cs).length).foldl
        (fun acc i => if m.testBit i then acc ^^^ (c :: cs).getD i 0 else acc) 0
        = maskXorRec (c :: cs) m
      rw [show (c :: cs).length = cs.length + 1 from rfl,
        List.range_succ_eq_map, List.foldl_cons, List.foldl_map]
      have hfun : (fun (acc i : Nat) =>
          if m.testBit (i + 1) then acc ^^^ (c :: cs).getD (i + 1) 0 else acc)
          = (fun acc i => if (m / 2).testBit i then acc ^^^ cs.getD i 0 else acc) := by
        funext acc i
        rw [Nat.testBit_succ, List.getD_cons_succ]
      rw [hfun, foldl_cond_xor (fun i => cs.getD i 0) (fun i => (m / 2).testBit i)]
      rw [show (List.range cs.length).foldl
        (fun acc i => if (m / 2).testBit i then acc ^^^ cs.getD i 0 else acc) 0
        = maskXor cs (m / 2) from rfl, ih (m / 2)]
      show (if m.testBit 0 then 0 ^^^ (c :: cs).getD 0 0 else 0) ^^^ maskXorRec cs (m / 2)
        = maskXorRec (c :: cs) m
      by_cases hm : m % 2 = 1
      · simp [maskXorRec, hm, Nat.testBit_zero]
      · simp [maskXorRec, hm, Nat.testBit_zero]

theorem xor_div_two (a b : Nat) : (a ^^^ b) / 2 = a / 2 ^^^ b / 2 := by
  apply Nat.eq_of_testBit_eq
  intro i
  rw [← Nat.testBit_succ, Nat.testBit_xor, Nat.testBit_xor,
    Nat.testBit_succ, Nat.testBit_succ]

theorem maskXorRec_xor (l : List Nat) :
    ∀ a b, maskXorRec l (a ^^^ b) = maskXorRec l a ^^^ maskXorRec l b := by
  induction l with
  | nil => intro a b; simp [maskXorRec]
  | cons c cs ih =>
      intro a b
      show (if (a ^^^ b) % 2 = 1 then c else 0) ^^^ maskXorRec cs ((a ^^^ b) / 2)
        = ((if a % 2 = 1 then c else 0) ^^^ maskXorRec cs (a / 2))
          ^^^ ((if b % 2 = 1 then c else 0) ^^^ maskXorRec cs (b / 2))
      rw [xor_div_two, ih (a / 2) (b / 2)]
      rcases Nat.mod_two_eq_zero_or_one a with ha | ha
        <;> rcases Nat.mod_two_eq_zero_or_one b with hb | hb
      · have hab : ¬ ((a ^^^ b) % 2 = 1) := by
          rw [Nat.xor_mod_two_eq_one]
          simp [ha, hb]
        rw [if_neg hab, if_neg (by omega : ¬ a % 2 = 1), if_neg (by omega : ¬ b % 2 = 1),
          Nat.zero_xor, Nat.zero_xor, Nat.zero_xor]
      · have hab : (a ^^^ b) % 2 = 1 := by
          rw [Nat.xor_mod_two_eq_one]
          simp [ha, hb]
        rw [if_pos hab, if_neg (by omega : ¬ a % 2 = 1), if_pos hb,
          Nat.zero_xor, xor_left_swap]
      · have hab : (a ^^^ b) % 2 = 1 := by
          rw [Nat.xor_mod_two_eq_one]
          simp [ha, hb]
        rw [if_pos hab, if_pos ha, if_neg (by omega : ¬ b % 2 = 1),
          Nat.zero_xor, Nat.xor_assoc]
      · have hab : ¬ ((a ^^^ b) % 2 = 1) := by
          rw [Nat.xor_mod_two_eq_one]
          simp [ha, hb]
        rw [if_neg hab, if_pos ha, if_pos hb, Nat.zero_xor, xor_xor_rearrange]

theorem maskXorRec_two_pow : ∀ (i : Nat) (l : List Nat),
    maskXorRec l (2 ^ i) = l.getD i 0 := by
  intro i
  induction i with
  | zero =>
      intro l
      cases l with
      | nil => rfl
      | cons c cs =>
          show (if 2 ^ 0 % 2 = 1 then c else 0) ^^^ maskXorRec cs (2 ^ 0 / 2) = c
          norm_num [maskXorRec_zero]
  | succ n ih =>
      intro l
      cases l with
      | nil => rfl
      | cons c cs =>
          show (if 2 ^ (n + 1) % 2 = 1 then c else 0) ^^^ maskXorRec cs (2 ^ (n + 1) / 2)
            = (c :: cs).getD (n + 1) 0
          have h1 : 2 ^ (n + 1) % 2 = 0 := by
            rw [Nat.pow_succ]
            simp
          have h2 : 2 ^ (n + 1) / 2 = 2 ^ n := by
            rw [Nat.pow_succ]
            exact Nat.mul_div_cancel _ (by omega)
          rw [h1, h2, ih cs, List.getD_cons_succ]
          simp

theorem maskXorRec_lt (l : List Nat) (hl : ∀ v ∈ l, v < 64) :
    ∀ m, maskXorRec l m < 64 := by
  induction l with
  | nil => intro m; simp [maskXorRec]
  | cons c cs ih =>
      intro m
      show (if m % 2 = 1 then c else 0) ^^^ maskXorRec cs (m / 2) < 64
      have h64 : (64 : Nat) = 2 ^ 6 := by norm_num
      rw [h64]
      apply Nat.xor_lt_two_pow
      · by_cases hm : m % 2 = 1
        · rw [if_pos hm, ← h64]
          exact hl c (List.mem_cons_self c cs)
        · rw [if_neg hm]
          norm_num
      · rw [← h64]
        exact ih (fun v hv => hl v (List.mem_cons_of_mem c hv)) (m / 2)

theorem countBits_eq_zero : ∀ d, countBits d = 0 → d = 0 := by
  intro d
  induction d using Nat.strong_induction_on with
  | _ d ih =>
    match d with
    | 0 => intro _; rfl
    | n + 1 =>
        intro h
        rw [countBits_succ] at h
        have h2 : countBits ((n + 1) / 2) = 0 := by omega
        have h3 : (n + 1) / 2 = 0 := ih ((n + 1) / 2) (by omega) h2
        omega

theorem countBits_eq_one : ∀ d, countBits d = 1 → ∃ i, d = 2 ^ i := by
  intro d
  induction d using Nat.strong_induction_on with
  | _ d ih =>
    match d with
    | 0 => intro h; exact absurd h (by decide)
    | n + 1 =>
        intro h
        rw [countBits_succ] at h
        rcases Nat.mod_two_eq_zero_or_one (n + 1) with hp | hp
        · have h2 : countBits ((n + 1) / 2) = 1 := by omega
          obtain ⟨i, hI⟩ := ih ((n + 1) / 2) (by omega) h2
          refine ⟨i + 1, ?_⟩
          have hdm := Nat.div_add_mod (n + 1) 2
          have hps : 2 ^ (i + 1) = 2 ^ i * 2 := Nat.pow_succ 2 i
          omega
        · have h2 : countBits ((n + 1) / 2) = 0 := by omega
          have h3 : (n + 1) / 2 = 0 := countBits_eq_zero _ h2
          refine ⟨0, ?_⟩
          have : n + 1 = 1 := by omega
          simp [this]

theorem two_mul_xor (a b : Nat) : 2 * a ^^^ 2 * b = 2 * (a ^^^ b) := by
  apply Nat.eq_of_testBit_eq
  intro i
  cases i with
  | zero =>
      rw [Nat.testBit_xor]
      simp [Nat.testBit_zero, Nat.mul_mod_right]
  | succ i =>
      rw [Nat.testBit_xor, Nat.testBit_succ, Nat.testBit_succ, Nat.testBit_succ,
        Nat.mul_div_cancel_left a (by omega : 0 < 2),
        Nat.mul_div_cancel_left b (by omega : 0 < 2),
        Nat.mul_div_cancel_left (a ^^^ b) (by omega : 0 < 2),
        Nat.testBit_xor]

theorem two_mul_xor_one (a : Nat) : 2 * a ^^^ 1 = 2 * a + 1 := by
  apply Nat.eq_of_testBit_eq
  intro i
  cases i with
  | zero =>
      rw [Nat.testBit_xor]
      have h1 : (2 * a) % 2 = 0 := Nat.mul_mod_right 2 a
      have h2 : (2 * a + 1) % 2 = 1 := by omega
      simp [Nat.testBit_zero, h1, h2]
  | succ i =>
      rw [Nat.testBit_xor, Nat.testBit_succ, Nat.testBit_succ, Nat.testBit_succ,
        Nat.mul_div_cancel_left a (by omega : 0 < 2),
        show (2 * a + 1) / 2 = a by omega,
        show (1 : Nat) / 2 = 0 by norm_num,
        Nat.zero_testBit, Bool.xor_false]

theorem countBits_eq_two : ∀ d, countBits d = 2 →
    ∃ i j, i ≠ j ∧ d = 2 ^ j ^^^ 2 ^ i := by
  intro d
  induction d using Nat.strong_induction_on with
  | _ d ih =>
    match d with
    | 0 => intro h; exact absurd h (by decide)
    | n + 1 =>
        intro h
        rw [countBits_succ] at h
        rcases Nat.mod_two_eq_zero_or_one (n + 1) with hp | hp
        · have h2 : countBits ((n + 1) / 2) = 2 := by omega
          obtain ⟨i, j, hij, hIJ⟩ := ih ((n + 1) / 2) (by omega) h2
          refine ⟨i + 1, j + 1, by omega, ?_⟩
          have hdm := Nat.div_add_mod (n + 1) 2
          have hn : n + 1 = 2 * ((n + 1) / 2) := by omega
          rw [hn, hIJ, ← two_mul_xor, Nat.pow_succ, Nat.pow_succ]
          ring_nf
        · have h2 : countBits ((n + 1) / 2) = 1 := by omega
          obtain ⟨i, hI⟩ := countBits_eq_one _ h2
          refine ⟨0, i + 1, by omega, ?_⟩
          have hdm := Nat.div_add_mod (n + 1) 2
          have hn : n + 1 = 2 * ((n + 1) / 2) + 1 := by omega
          rw [hn, hI, ← two_mul_xor_one, Nat.pow_succ, Nat.pow_zero]
          rw [show 2 ^ i * 2 = 2 * 2 ^ i by ring]

theorem countBits_lt_three_of_lt_seven : ∀ d < 7, countBits d < 3 := by decide

/-- C8: Fano-plane guarantee — for every list of exactly 7 pairwise-distinct
nonzero 6-bit card values (each in [1,63]), `hasValidSet` returns `true`:
some subset of size ≥ 3 XORs to 0. -/
theorem fano_plane_guarantee (l : List Nat) (hlen : l.length = 7)
    (hnd : l.Nodup) (hvals : ∀ v ∈ l, 1 ≤ v ∧ v ≤ 63) :
    hasValidSet l = true := by
  have h27 : (2 : Nat) ^ 7 = 128 := by norm_num
  have hlt : ∀ m, maskXorRec l m < 64 :=
    maskXorRec_lt l (fun v hv => by have := (hvals v hv).2; omega)
  obtain ⟨m1, m2, hne, hfeq⟩ := Fintype.exists_ne_map_eq_of_card_lt
    (fun m : Fin 128 => (⟨maskXorRec l m.val, hlt m.val⟩ : Fin 64)) (by simp)
  have hxeq : maskXorRec l m1.val = maskXorRec l m2.val := by
    simpa [Fin.ext_iff] using hfeq
  have hd0 : m1.val ^^^ m2.val ≠ 0 := by
    intro hcon
    exact hne (Fin.ext (Nat.xor_eq_zero.mp hcon))
  have hdxor : maskXorRec l (m1.val ^^^ m2.val) = 0 := by
    rw [maskXorRec_xor, hxeq, Nat.xor_self]
  have hm1 : m1.val < 2 ^ 7 := by rw [h27]; exact m1.isLt
  have hm2 : m2.val < 2 ^ 7 := by rw [h27]; exact m2.isLt
  have hdlt : m1.val ^^^ m2.val < 128 := by
    have := Nat.xor_lt_two_pow hm1 hm2
    rw [h27] at this
    exact this
  set d := m1.val ^^^ m2.val with hd
  have hcb : 3 ≤ countBits d := by
    by_contra hcon
    push_neg at hcon
    have hcase : countBits d = 0 ∨ countBits d = 1 ∨ countBits d = 2 := by omega
    rcases hcase with h0 | h1 | h2
    · exact hd0 (countBits_eq_zero d h0)
    · obtain ⟨i, hI⟩ := countBits_eq_one d h1
      have hi7 : i < 7 := by
        by_contra hige
        push_neg at hige
        have hpow : (2 : Nat) ^ 7 ≤ 2 ^ i := Nat.pow_le_pow_right (by omega) hige
        omega
      have hb : i < l.length := by omega
      rw [hI, maskXorRec_two_pow, List.getD_eq_getElem l 0 hb] at hdxor
      have hmem : l[i] ∈ l := List.getElem_mem hb
      have h1v := (hvals _ hmem).1
      omega
    · obtain ⟨i, j, hij, hIJ⟩ := countBits_eq_two d h2
      have hji : j ≠ i := Ne.symm hij
      have hbj : d.testBit j = true := by
        rw [hIJ, Nat.testBit_xor, Nat.testBit_two_pow, Nat.testBit_two_pow]
        simp [hij]
      have hbi : d.testBit i = true := by
        rw [hIJ, Nat.testBit_xor, Nat.testBit_two_pow, Nat.testBit_two_pow]
        simp [hji]
      have hj7 : j < 7 := by
        by_contra hcon2
        push_neg at hcon2
        have hfalse : d.testBit j = false :=
          Nat.testBit_eq_false_of_lt (lt_of_lt_of_le hdlt
            (by rw [← h27]; exact Nat.pow_le_pow_right (by omega) hcon2))
        rw [hbj] at hfalse
        exact Bool.noConfusion hfalse
      have hi7 : i < 7 := by
        by_contra hcon2
        push_neg at hcon2
        have hfalse : d.testBit i = false :=
          Nat.testBit_eq_false_of_lt (lt_of_lt_of_le hdlt
            (by rw [← h27]; exact Nat.pow_le_pow_right (by omega) hcon2))
        rw [hbi] at hfalse
        exact Bool.noConfusion hfalse
      have hbj' : j < l.length := by omega
      have hbi' : i < l.length := by omega
      rw [hIJ, maskXorRec_xor, maskXorRec_two_pow, maskXorRec_two_pow,
        List.getD_eq_getElem l 0 hbj', List.getD_eq_getElem l 0 hbi'] at hdxor
      have heq2 : l[j] = l[i] := Nat.xor_eq_zero.mp hdxor
      have hinj := List.nodup_iff_injective_get.mp hnd
      have hfin : (⟨j, hbj'⟩ : Fin l.length) = ⟨i, hbi'⟩ := by
        apply hinj
        show l[j] = l[i]
        exact heq2
      have hji2 : j = i := by simpa using hfin
      exact hij hji2.symm
  have hxor0 : maskXor l d = 0 := by rw [maskXor_eq_rec]; exact hdxor
  have hd7 : 7 ≤ d := by
    by_contra hcon
    push_neg at hcon
    have := countBits_lt_three_of_lt_seven d hcon
    omega
  show hasValidSet l = true
  unfold hasValidSet
  rw [if_neg (by rw [hlen]; decide)]
  rw [List.any_eq_true]
  refine ⟨d, ?_, ?_⟩
  · rw [List.mem_range'_1, hlen]
    omega
  · simp [hcb, hxor0, MIN_SET_SIZE]

/-- C8 witness: the concrete table `[1,2,3,4,5,6,7]` satisfies the
hypotheses and `hasValidSet` returns `true` on it. -/
theorem fano_plane_witness : hasValidSet [1, 2, 3, 4, 5, 6, 7] = true :=
  fano_plane_guarantee [1, 2, 3, 4, 5, 6, 7] rfl (by decide) (by decide)

end ProjSet
